import Mathlib

/-!
# Verification of the looped video-generation controller

A shallow embedding of `looped_generation.py`: the control-signal protocol
(`check_pause_status`), the iteration loop (`run_feedback_loop`), the
aggregation helper (`stitch_videos`) and the frame extractor
(`extract_last_frame`), together with theorems settling the specification
claims about them.

Modelling conventions:
* Python strings are Lean `String`s; `str.startswith`, `str.endswith` and
  `str.strip` are modelled on the underlying character list
  (`pyStartsWith`, `pyEndsWith`, `pyStrip`) so that they reduce
  structurally.
* Python ints are `Int`.  The float parameter `delay_between_iterations`
  is modelled as an `Int`, since the code only compares it against `0`.
* Side effects (subprocess invocations, directory creation, sleeps,
  stitch calls, file writes/removals) are recorded as an event trace.
* Fallible external collaborators (`os.listdir`, ffmpeg) are supplied by
  an environment record: `listdir` returns `none` when the Python call
  would raise `OSError`; running an external tool yields a
  `ToolOutcome`.
* The control queue contents are supplied per checkpoint: `queuedAt j`
  holds the signals already queued when checkpoint `j` drains
  (`get_nowait` loop), `arrivingAt j` the signals that arrive while the
  loop is blocked in the paused wait at checkpoint `j`.  Signals that
  remain queued when the wait exits are accounted to the next
  checkpoint's `queuedAt`.
* A generation subprocess invocation is assumed to succeed (the code
  re-raises `CalledProcessError`; every claim under study conditions on
  successful generation), and the run either completes, raises (an
  `error` result), or waits forever on a pause that is never resumed
  (the `blocked` result).
-/

namespace LoopedGen

/-- Python `s.startswith(p)`, on the character lists of the strings. -/
def pyStartsWith (s p : String) : Bool := p.data.isPrefixOf s.data

/-- Python `s.endswith(p)`, on the character lists of the strings. -/
def pyEndsWith (s p : String) : Bool := p.data.isSuffixOf s.data

/-- Python `s.strip()`: remove leading and trailing whitespace. -/
def pyStrip (s : String) : String :=
  ⟨((s.data.dropWhile Char.isWhitespace).reverse.dropWhile Char.isWhitespace).reverse⟩

/-- The mutable run state of a `LoopedGeneration` instance: the
`pause_event` flag and the `current_prompt` / `current_image`
attributes. -/
structure RunState where
  paused : Bool
  current_prompt : Option String
  current_image : Option String
deriving DecidableEq

/-- One step of the non-blocking drain loop in `check_pause_status`
(the `get_nowait` phase): `PAUSE` sets the pause flag, `RESUME` clears
it, `PROMPT:x` / `IMAGE:x` overwrite the prompt / conditioning image;
any other signal is ignored. -/
def applySignalDrain (st : RunState) (sig : String) : RunState :=
  if sig = "PAUSE" then { st with paused := true }
  else if sig = "RESUME" then { st with paused := false }
  else if pyStartsWith sig "PROMPT:" then { st with current_prompt := some (sig.drop 7) }
  else if pyStartsWith sig "IMAGE:" then { st with current_image := some (sig.drop 6) }
  else st

/-- One step of the paused wait loop in `check_pause_status`: `RESUME`
clears the pause flag, `PROMPT:x` / `IMAGE:x` are still applied; a
`PAUSE` (or any other signal) is ignored. -/
def applySignalPaused (st : RunState) (sig : String) : RunState :=
  if sig = "RESUME" then { st with paused := false }
  else if pyStartsWith sig "PROMPT:" then { st with current_prompt := some (sig.drop 7) }
  else if pyStartsWith sig "IMAGE:" then { st with current_image := some (sig.drop 6) }
  else st

/-- The `while self.pause_event.is_set()` wait of `check_pause_status`,
fed the (finite) list of signals that will arrive during the wait.
Returns `none` when the wait never ends (paused with no further
signals), otherwise the state at the moment the flag is observed
clear. -/
def waitForResume (st : RunState) : List String → Option RunState
  | [] => if st.paused then none else some st
  | sig :: rest =>
      if st.paused then waitForResume (applySignalPaused st sig) rest else some st

/-- `check_pause_status`: drain every queued signal without blocking,
then, while the pause flag is set, keep consuming arriving signals. -/
def checkPauseStatus (st : RunState) (queued arriving : List String) : Option RunState :=
  waitForResume (queued.foldl applySignalDrain st) arriving

/-- The state reached when `check_pause_status` blocks forever: all
queued and all arriving signals have been applied and the flag is still
set. -/
def blockedState (st : RunState) (queued arriving : List String) : RunState :=
  arriving.foldl applySignalPaused (queued.foldl applySignalDrain st)

/-- Side effects performed by `run_feedback_loop`, in order. -/
inductive Event where
  | makedirs (path : String)
  | runCmd (cmd : List String)
  | sleep (delay : Int)
  | stitchCall (paths : List String) (dir filename : String)
deriving DecidableEq

/-- A raised Python exception, by class and message. -/
inductive PyErr where
  | valueError (msg : String)
  | fileNotFoundError (msg : String)
  | runtimeError (msg : String)
deriving DecidableEq

/-- Result of a `run_feedback_loop` call: normal return value, raised
exception, or an unending wait inside a pause. -/
inductive LoopResult where
  | ok (ret : Option String)
  | error (e : PyErr)
  | blocked
deriving DecidableEq

/-- Python `str(i).zfill(3)` for a natural number. -/
def zfill3 (n : Nat) : String :=
  let s := toString n
  if s.length < 3 then String.mk (List.replicate (3 - s.length) '0') ++ s else s

/-- The per-iteration output directory `f"{base_output_dir}/frame_{str(i).zfill(3)}"`. -/
def frameDir (base : String) (i : Nat) : String := base ++ "/frame_" ++ zfill3 i

/-- `os.path.join` for a non-empty directory (with no trailing
separator) and a relative name, the only case arising here. -/
def pathJoin (dir name : String) : String := dir ++ "/" ++ name

/-- `_find_mp4_files`: list the directory and keep names ending in
`.mp4`; an `OSError` from the listing (modelled as `none`) yields the
empty list. -/
def findMp4Files (listdir : String → Option (List String)) (directory : String) :
    List String :=
  match listdir directory with
  | some files => files.filter (fun f => pyEndsWith f ".mp4")
  | none => []

/-- The parameters of `run_feedback_loop`. -/
structure LoopParams where
  initial_prompt : String
  seed : Int
  input_image_path : Option String
  base_output_dir : String
  max_iterations : Int
  height : Int
  width : Int
  pipeline_config : String
  number_of_frames : Int
  inference_py : String
  delay_between_iterations : Int
  stitch_videos : Bool
  stitched_output_filename : String

/-- The external world of a run: directory listings, the signals seen
at each checkpoint, and the value returned by the injected
`stitch_videos_fn`. -/
structure LoopEnv where
  listdir : String → Option (List String)
  queuedAt : Nat → List String
  arrivingAt : Nat → List String
  stitchResult : List String → String → String → String

/-- `self.current_prompt` as it is spliced into a command line.  At
every point where a command is built the attribute holds a string (it
is assigned the initial prompt before the first checkpoint and signals
only ever store strings); the `none` branch is unreachable there. -/
def promptStr : Option String → String
  | some s => s
  | none => "None"

/-- The command built for iteration 0 (`first_cmd`, lines 361-387):
conditioning flags are appended exactly when `input_image_path` is
truthy (not `None` and not the empty string). -/
def firstCmd (p : LoopParams) : List String :=
  let cmd := ["python", p.inference_py, "--prompt", p.initial_prompt,
    "--height", toString p.height, "--width", toString p.width,
    "--seed", toString p.seed, "--num_frames", toString p.number_of_frames,
    "--pipeline_config", p.pipeline_config,
    "--output_path", frameDir p.base_output_dir 0]
  match p.input_image_path with
  | some img =>
      if img = "" then cmd
      else cmd ++ ["--conditioning_media_paths", img, "--conditioning_start_frames", "0"]
  | none => cmd

/-- The command built for iteration `i ≥ 1` (`cmd`, lines 414-435),
with the effective prompt and the located previous output unit as
arguments. -/
def loopCmd (p : LoopParams) (prompt inputMp4 : String) (i : Nat) : List String :=
  ["python", p.inference_py, "--prompt", prompt,
   "--conditioning_media_paths", inputMp4, "--conditioning_start_frames", "0",
   "--height", toString p.height, "--width", toString p.width,
   "--seed", toString (p.seed + (i : Int)), "--num_frames", toString p.number_of_frames,
   "--pipeline_config", p.pipeline_config,
   "--output_path", frameDir p.base_output_dir i]

/-- The aggregation collection loop (lines 452-459): for each iteration
in order, the first `.mp4` of its directory, skipping iterations whose
directory yields none. -/
def collectVideoPaths (listdir : String → Option (List String)) (base : String)
    (n : Nat) : List String :=
  (List.range n).filterMap fun i =>
    match findMp4Files listdir (frameDir base i) with
    | [] => none
    | f :: _ => some (pathJoin (frameDir base i) f)

/-- The epilogue of `run_feedback_loop` (lines 446-472): clear the
mutable prompt/image, then, when stitching was requested and at least
one output was collected, call the injected Stitcher once. -/
def finishLoop (env : LoopEnv) (p : LoopParams) (st : RunState) (n : Nat) :
    List Event × LoopResult × RunState :=
  let st := { st with current_prompt := none, current_image := none }
  if p.stitch_videos then
    match collectVideoPaths env.listdir p.base_output_dir n with
    | [] => ([], .ok none, st)
    | f :: rest =>
        ([.stitchCall (f :: rest) p.base_output_dir p.stitched_output_filename],
         .ok (some (env.stitchResult (f :: rest) p.base_output_dir
            p.stitched_output_filename)), st)
  else ([], .ok none, st)

/-- The `for i in range(1, max_iterations)` loop (lines 397-444),
running iterations `i, i+1, …, i+r-1` and then the epilogue.  Each
iteration drains checkpoint `i`, locates the previous iteration's
output unit (failing with `FileNotFoundError` when there is none),
invokes the generation command and sleeps. -/
def runIterations (env : LoopEnv) (p : LoopParams) :
    RunState → Nat → Nat → List Event × LoopResult × RunState
  | st, i, 0 => finishLoop env p st i
  | st, i, r + 1 =>
    match checkPauseStatus st (env.queuedAt i) (env.arrivingAt i) with
    | none => ([], .blocked, blockedState st (env.queuedAt i) (env.arrivingAt i))
    | some st1 =>
      let prev := frameDir p.base_output_dir (i - 1)
      match findMp4Files env.listdir prev with
      | [] => ([], .error (.fileNotFoundError ("No .mp4 file found in " ++ prev)), st1)
      | f :: _ =>
        let cmd := loopCmd p (promptStr st1.current_prompt) (pathJoin prev f) i
        let rest := runIterations env p st1 (i + 1) r
        (.runCmd cmd :: .sleep p.delay_between_iterations :: rest.1, rest.2.1, rest.2.2)

/-- `run_feedback_loop` (lines 295-472): set the current prompt, drain
the control channel, validate the parameters, create the output root,
run iteration 0 and then the loop. -/
def runFeedbackLoop (env : LoopEnv) (p : LoopParams) (st0 : RunState) :
    List Event × LoopResult × RunState :=
  let st := { st0 with current_prompt := some p.initial_prompt }
  match checkPauseStatus st (env.queuedAt 0) (env.arrivingAt 0) with
  | none => ([], .blocked, blockedState st (env.queuedAt 0) (env.arrivingAt 0))
  | some st1 =>
    if p.initial_prompt = "" ∨ pyStrip p.initial_prompt = "" then
      ([], .error (.valueError "Initial prompt cannot be empty"), st1)
    else if p.max_iterations < 1 then
      ([], .error (.valueError "max_iterations must be at least 1"), st1)
    else if p.height < 1 ∨ p.width < 1 then
      ([], .error (.valueError "Height and width must be positive"), st1)
    else if p.number_of_frames < 1 then
      ([], .error (.valueError "number_of_frames must be positive"), st1)
    else if p.delay_between_iterations < 0 then
      ([], .error (.valueError "delay_between_iterations cannot be negative"), st1)
    else
      let rest := runIterations env p st1 1 (p.max_iterations.toNat - 1)
      (.makedirs p.base_output_dir :: .runCmd (firstCmd p) :: rest.1, rest.2.1, rest.2.2)

/-- The generation commands recorded in a trace, in order. -/
def cmdsOf (evs : List Event) : List (List String) :=
  evs.filterMap fun e => match e with | .runCmd c => some c | _ => none

/-- The Stitcher invocations recorded in a trace, in order. -/
def stitchCallsOf (evs : List Event) : List (List String × String × String) :=
  evs.filterMap fun e => match e with | .stitchCall ps d f => some (ps, d, f) | _ => none

/-- The validation predicate of `run_feedback_loop` (lines 340-353):
all five checks pass. -/
def validParams (p : LoopParams) : Prop :=
  ¬(p.initial_prompt = "" ∨ pyStrip p.initial_prompt = "") ∧
  1 ≤ p.max_iterations ∧ 1 ≤ p.height ∧ 1 ≤ p.width ∧
  1 ≤ p.number_of_frames ∧ 0 ≤ p.delay_between_iterations

instance (p : LoopParams) : Decidable (validParams p) := by
  unfold validParams; infer_instance

/-! ## Helper lemmas about signal strings -/

/-- A string extending `p` is not equal to a string whose first
`p.length` characters differ from `p`. -/
theorem ne_of_append (p q : String) (h : q.data.take p.data.length ≠ p.data)
    (x : String) : p ++ x ≠ q := fun he =>
  h (by rw [← congrArg String.data he, String.data_append, List.take_left])

/-- Dropping the length of `p` from `p ++ x` leaves `x`. -/
theorem append_drop (p x : String) (n : Nat) (hn : p.data.length = n) :
    (p ++ x).drop n = x := by
  apply String.ext
  rw [String.data_drop, String.data_append, ← hn, List.drop_left]

theorem pyStartsWith_append (p x : String) : pyStartsWith (p ++ x) p = true := by
  unfold pyStartsWith
  rw [String.data_append]
  exact List.isPrefixOf_iff_prefix.mpr (List.prefix_append _ _)

theorem image_not_promptSig (x : String) :
    pyStartsWith ("IMAGE:" ++ x) "PROMPT:" = false := by
  unfold pyStartsWith
  rw [String.data_append]
  show List.isPrefixOf
      ('P' :: 'R' :: 'O' :: 'M' :: 'P' :: 'T' :: ':' :: [])
      ('I' :: 'M' :: 'A' :: 'G' :: 'E' :: ':' :: x.data) = false
  simp [List.isPrefixOf]

theorem applySignalDrain_prompt (st : RunState) (x : String) :
    applySignalDrain st ("PROMPT:" ++ x) = { st with current_prompt := some x } := by
  unfold applySignalDrain
  rw [if_neg (ne_of_append _ _ (by decide) x), if_neg (ne_of_append _ _ (by decide) x),
    if_pos (pyStartsWith_append "PROMPT:" x), append_drop "PROMPT:" x 7 (by decide)]

theorem applySignalDrain_image (st : RunState) (x : String) :
    applySignalDrain st ("IMAGE:" ++ x) = { st with current_image := some x } := by
  unfold applySignalDrain
  rw [if_neg (ne_of_append _ _ (by decide) x), if_neg (ne_of_append _ _ (by decide) x),
    if_neg (show ¬pyStartsWith ("IMAGE:" ++ x) "PROMPT:" = true by
      simp [image_not_promptSig]),
    if_pos (pyStartsWith_append "IMAGE:" x), append_drop "IMAGE:" x 6 (by decide)]

theorem applySignalPaused_prompt (st : RunState) (x : String) :
    applySignalPaused st ("PROMPT:" ++ x) = { st with current_prompt := some x } := by
  unfold applySignalPaused
  rw [if_neg (ne_of_append _ _ (by decide) x),
    if_pos (pyStartsWith_append "PROMPT:" x), append_drop "PROMPT:" x 7 (by decide)]

theorem applySignalPaused_image (st : RunState) (x : String) :
    applySignalPaused st ("IMAGE:" ++ x) = { st with current_image := some x } := by
  unfold applySignalPaused
  rw [if_neg (ne_of_append _ _ (by decide) x),
    if_neg (show ¬pyStartsWith ("IMAGE:" ++ x) "PROMPT:" = true by
      simp [image_not_promptSig]),
    if_pos (pyStartsWith_append "IMAGE:" x), append_drop "IMAGE:" x 6 (by decide)]

/-! ## Pause-protocol lemmas -/

/-- If the paused wait returns, the pause flag is clear. -/
theorem waitForResume_paused {st : RunState} {sigs : List String} {st' : RunState}
    (h : waitForResume st sigs = some st') : st'.paused = false := by
  induction sigs generalizing st with
  | nil =>
    unfold waitForResume at h
    by_cases hp : st.paused
    · rw [if_pos hp] at h; cases h
    · rw [if_neg hp] at h; cases h; simpa using hp
  | cons sig rest ih =>
    unfold waitForResume at h
    by_cases hp : st.paused
    · rw [if_pos hp] at h; exact ih h
    · rw [if_neg hp] at h; cases h; simpa using hp

/-- If `check_pause_status` returns, the pause flag is clear: no code
after the checkpoint ever runs in a paused state. -/
theorem checkPauseStatus_paused {st : RunState} {queued arriving : List String}
    {st' : RunState} (h : checkPauseStatus st queued arriving = some st') :
    st'.paused = false :=
  waitForResume_paused h

/-- An unpaused state exits the wait loop immediately. -/
theorem waitForResume_not_paused {st : RunState} (hp : st.paused = false)
    (sigs : List String) : waitForResume st sigs = some st := by
  cases sigs <;> simp [waitForResume, hp]

/-- A signal other than `RESUME` never clears the pause flag in the
wait loop. -/
theorem applySignalPaused_paused (st : RunState) {sig : String}
    (h : sig ≠ "RESUME") : (applySignalPaused st sig).paused = st.paused := by
  unfold applySignalPaused
  rw [if_neg h]
  split
  · rfl
  · split
    · rfl
    · rfl

/-- While paused, the wait loop never ends unless a `RESUME` arrives. -/
theorem waitForResume_none {st : RunState} (hp : st.paused = true)
    {sigs : List String} (hnr : "RESUME" ∉ sigs) : waitForResume st sigs = none := by
  induction sigs generalizing st with
  | nil => simp [waitForResume, hp]
  | cons sig rest ih =>
    unfold waitForResume
    rw [if_pos hp]
    have hne : sig ≠ "RESUME" := fun he => hnr (he ▸ List.mem_cons_self sig rest)
    exact ih (by rw [applySignalPaused_paused st hne, hp]) (fun hm => hnr (List.mem_cons_of_mem _ hm))

/-- A `RESUME` among the arriving signals always ends the wait. -/
theorem waitForResume_some_of_resume (st : RunState) {sigs : List String}
    (hr : "RESUME" ∈ sigs) : ∃ st', waitForResume st sigs = some st' := by
  induction sigs generalizing st with
  | nil => cases hr
  | cons sig rest ih =>
    by_cases hp : st.paused
    · unfold waitForResume
      rw [if_pos hp]
      by_cases he : sig = "RESUME"
      · subst he
        have hps : (applySignalPaused st "RESUME").paused = false := by
          simp [applySignalPaused]
        exact ⟨_, waitForResume_not_paused hps rest⟩
      · exact ih _ ((List.mem_cons.mp hr).resolve_left (fun hs => he hs.symm))
    · exact ⟨st, by unfold waitForResume; rw [if_neg hp]⟩

/-- `check_pause_status` blocks forever when the drain leaves the flag
set and no `RESUME` ever arrives. -/
theorem checkPauseStatus_none {st : RunState} {queued : List String}
    (hp : (queued.foldl applySignalDrain st).paused = true)
    {arriving : List String} (hnr : "RESUME" ∉ arriving) :
    checkPauseStatus st queued arriving = none :=
  waitForResume_none hp hnr

/-- `check_pause_status` returns when a `RESUME` arrives during the wait. -/
theorem checkPauseStatus_some_of_resume (st : RunState) (queued : List String)
    {arriving : List String} (hr : "RESUME" ∈ arriving) :
    ∃ st', checkPauseStatus st queued arriving = some st' :=
  waitForResume_some_of_resume _ hr

/-- A blocked checkpoint stops the loop: no event at all (in
particular no generation invocation) is produced for the current or any
later iteration. -/
theorem runIterations_blocked (env : LoopEnv) (p : LoopParams) (st : RunState)
    (i r : Nat)
    (h : checkPauseStatus st (env.queuedAt i) (env.arrivingAt i) = none) :
    runIterations env p st i (r + 1) =
      ([], .blocked, blockedState st (env.queuedAt i) (env.arrivingAt i)) := by
  simp [runIterations, h]

/-! ## Trace projections and loop unfolding -/

theorem cmdsOf_nil : cmdsOf [] = [] := rfl

theorem cmdsOf_cons_runCmd (c : List String) (l : List Event) :
    cmdsOf (.runCmd c :: l) = c :: cmdsOf l := by simp [cmdsOf]

theorem cmdsOf_cons_makedirs (d : String) (l : List Event) :
    cmdsOf (.makedirs d :: l) = cmdsOf l := by simp [cmdsOf]

theorem cmdsOf_cons_sleep (d : Int) (l : List Event) :
    cmdsOf (.sleep d :: l) = cmdsOf l := by simp [cmdsOf]

theorem cmdsOf_cons_stitchCall (ps : List String) (d f : String) (l : List Event) :
    cmdsOf (.stitchCall ps d f :: l) = cmdsOf l := by simp [cmdsOf]

theorem stitchCallsOf_nil : stitchCallsOf [] = [] := rfl

theorem stitchCallsOf_cons_runCmd (c : List String) (l : List Event) :
    stitchCallsOf (.runCmd c :: l) = stitchCallsOf l := by simp [stitchCallsOf]

theorem stitchCallsOf_cons_makedirs (d : String) (l : List Event) :
    stitchCallsOf (.makedirs d :: l) = stitchCallsOf l := by simp [stitchCallsOf]

theorem stitchCallsOf_cons_sleep (d : Int) (l : List Event) :
    stitchCallsOf (.sleep d :: l) = stitchCallsOf l := by simp [stitchCallsOf]

theorem stitchCallsOf_cons_stitchCall (ps : List String) (d f : String) (l : List Event) :
    stitchCallsOf (.stitchCall ps d f :: l) = (ps, d, f) :: stitchCallsOf l := by
  simp [stitchCallsOf]

/-- The epilogue of the loop performs no generation invocation. -/
theorem cmdsOf_finishLoop (env : LoopEnv) (p : LoopParams) (st : RunState) (n : Nat) :
    cmdsOf (finishLoop env p st n).1 = [] := by
  cases hp : p.stitch_videos <;>
    cases hc : collectVideoPaths env.listdir p.base_output_dir n <;>
      simp [finishLoop, hp, hc, cmdsOf]

/-- Unfolding of `run_feedback_loop` on valid parameters with a
checkpoint-0 drain that returns. -/
theorem runFeedbackLoop_valid_eq (env : LoopEnv) (p : LoopParams) (st0 st1 : RunState)
    (hv : validParams p)
    (hcp : checkPauseStatus { st0 with current_prompt := some p.initial_prompt }
      (env.queuedAt 0) (env.arrivingAt 0) = some st1) :
    runFeedbackLoop env p st0 =
      (.makedirs p.base_output_dir :: .runCmd (firstCmd p) ::
         (runIterations env p st1 1 (p.max_iterations.toNat - 1)).1,
       (runIterations env p st1 1 (p.max_iterations.toNat - 1)).2.1,
       (runIterations env p st1 1 (p.max_iterations.toNat - 1)).2.2) := by
  obtain ⟨h1, h2, h3, h4, h5, h6⟩ := hv
  simp only [runFeedbackLoop, hcp]
  rw [if_neg h1, if_neg (by omega : ¬p.max_iterations < 1),
    if_neg (by omega : ¬(p.height < 1 ∨ p.width < 1)),
    if_neg (by omega : ¬p.number_of_frames < 1),
    if_neg (by omega : ¬p.delay_between_iterations < 0)]

/-- Shape of the generation commands produced by the iteration loop:
when every consulted directory yields an output unit and no checkpoint
blocks, iterations `i, …, i+r-1` each produce exactly one command of
the `loopCmd` shape, in index order. -/
theorem runIterations_cmds (env : LoopEnv) (p : LoopParams) :
    ∀ (r i : Nat) (st : RunState),
    (∀ j, j < r → findMp4Files env.listdir (frameDir p.base_output_dir (i + j - 1)) ≠ []) →
    (runIterations env p st i r).2.1 ≠ .blocked →
    (cmdsOf (runIterations env p st i r).1).length = r ∧
    ∀ k, k < r → ∃ pr m, (cmdsOf (runIterations env p st i r).1).getD k [] =
      loopCmd p pr m (i + k) := by
  intro r
  induction r with
  | zero =>
    intro i st _ _
    refine ⟨?_, fun k hk => absurd hk (Nat.not_lt_zero k)⟩
    show (cmdsOf (finishLoop env p st i).1).length = 0
    rw [cmdsOf_finishLoop]
    rfl
  | succ r ih =>
    intro i st hmp4 hnb
    cases hcp : checkPauseStatus st (env.queuedAt i) (env.arrivingAt i) with
    | none =>
      rw [runIterations_blocked env p st i r hcp] at hnb
      exact absurd rfl hnb
    | some st1 =>
      cases hm : findMp4Files env.listdir (frameDir p.base_output_dir (i - 1)) with
      | nil =>
        have := hmp4 0 (Nat.succ_pos r)
        rw [Nat.add_zero] at this
        exact absurd hm this
      | cons f fs =>
        have heq : runIterations env p st i (r + 1) =
            (.runCmd (loopCmd p (promptStr st1.current_prompt)
                (pathJoin (frameDir p.base_output_dir (i - 1)) f) i) ::
             .sleep p.delay_between_iterations ::
             (runIterations env p st1 (i + 1) r).1,
             (runIterations env p st1 (i + 1) r).2.1,
             (runIterations env p st1 (i + 1) r).2.2) := by
          simp [runIterations, hcp, hm]
        rw [heq] at hnb ⊢
        have hmp4s : ∀ j, j < r →
            findMp4Files env.listdir (frameDir p.base_output_dir (i + 1 + j - 1)) ≠ [] := by
          intro j hj
          have := hmp4 (j + 1) (Nat.succ_lt_succ hj)
          have harith : i + (j + 1) - 1 = i + 1 + j - 1 := by omega
          rwa [harith] at this
        obtain ⟨hlen, hidx⟩ := ih (i + 1) st1 hmp4s hnb
        rw [cmdsOf_cons_runCmd, cmdsOf_cons_sleep]
        refine ⟨by simp [hlen], ?_⟩
        intro k hk
        cases k with
        | zero =>
          refine ⟨promptStr st1.current_prompt,
            pathJoin (frameDir p.base_output_dir (i - 1)) f, ?_⟩
          rw [List.getD_cons_zero, Nat.add_zero]
        | succ k =>
          obtain ⟨pr, m, hpr⟩ := hidx k (Nat.lt_of_succ_lt_succ hk)
          refine ⟨pr, m, ?_⟩
          rw [List.getD_cons_succ, hpr]
          congr 1
          omega

/-- Unfolding of `run_feedback_loop` when the checkpoint-0 drain blocks
forever. -/
theorem runFeedbackLoop_blocked_eq (env : LoopEnv) (p : LoopParams) (st0 : RunState)
    (hcp : checkPauseStatus { st0 with current_prompt := some p.initial_prompt }
      (env.queuedAt 0) (env.arrivingAt 0) = none) :
    runFeedbackLoop env p st0 =
      ([], .blocked, blockedState { st0 with current_prompt := some p.initial_prompt }
        (env.queuedAt 0) (env.arrivingAt 0)) := by
  simp [runFeedbackLoop, hcp]

/-- `loopCmd` passes `--seed` followed by `seed + i`. -/
theorem loopCmd_seed_decomp (p : LoopParams) (pr m : String) (i : Nat) :
    ∃ pre post, loopCmd p pr m i =
      pre ++ ["--seed", toString (p.seed + (i : Int))] ++ post :=
  ⟨["python", p.inference_py, "--prompt", pr,
    "--conditioning_media_paths", m, "--conditioning_start_frames", "0",
    "--height", toString p.height, "--width", toString p.width],
   ["--num_frames", toString p.number_of_frames,
    "--pipeline_config", p.pipeline_config,
    "--output_path", frameDir p.base_output_dir i], rfl⟩

/-- `firstCmd` passes `--seed` followed by the base seed. -/
theorem firstCmd_seed_decomp (p : LoopParams) :
    ∃ pre post, firstCmd p = pre ++ ["--seed", toString p.seed] ++ post := by
  refine ⟨["python", p.inference_py, "--prompt", p.initial_prompt,
    "--height", toString p.height, "--width", toString p.width], ?_⟩
  cases himg : p.input_image_path with
  | none =>
    exact ⟨["--num_frames", toString p.number_of_frames,
      "--pipeline_config", p.pipeline_config,
      "--output_path", frameDir p.base_output_dir 0], by simp [firstCmd, himg]⟩
  | some img =>
    by_cases h0 : img = ""
    · exact ⟨["--num_frames", toString p.number_of_frames,
        "--pipeline_config", p.pipeline_config,
        "--output_path", frameDir p.base_output_dir 0], by simp [firstCmd, himg, h0]⟩
    · exact ⟨["--num_frames", toString p.number_of_frames,
        "--pipeline_config", p.pipeline_config,
        "--output_path", frameDir p.base_output_dir 0,
        "--conditioning_media_paths", img, "--conditioning_start_frames", "0"],
        by simp [firstCmd, himg, h0]⟩

/-- C1.  For every valid parameter set with `max_iterations = N ≥ 1`,
when each iteration's output directory yields an output unit and the
run does not block on a pause, exactly `N` generation invocations
occur, and the `j`-th invocation (in trace order, `j = 0 … N-1`)
passes `--seed` equal to `seed + j`. -/
theorem claim1_seed_schedule (env : LoopEnv) (p : LoopParams) (st0 : RunState)
    (hv : validParams p)
    (hmp4 : ∀ j, j < p.max_iterations.toNat →
      findMp4Files env.listdir (frameDir p.base_output_dir j) ≠ [])
    (hnb : (runFeedbackLoop env p st0).2.1 ≠ .blocked) :
    (cmdsOf (runFeedbackLoop env p st0).1).length = p.max_iterations.toNat ∧
    ∀ j, j < p.max_iterations.toNat → ∃ pre post,
      (cmdsOf (runFeedbackLoop env p st0).1).getD j [] =
        pre ++ ["--seed", toString (p.seed + (j : Int))] ++ post := by
  have hN : 1 ≤ p.max_iterations.toNat := by
    have := hv.2.1
    omega
  cases hcp : checkPauseStatus { st0 with current_prompt := some p.initial_prompt }
      (env.queuedAt 0) (env.arrivingAt 0) with
  | none =>
    rw [runFeedbackLoop_blocked_eq env p st0 hcp] at hnb
    exact absurd rfl hnb
  | some st1 =>
    rw [runFeedbackLoop_valid_eq env p st0 st1 hv hcp] at hnb ⊢
    rw [cmdsOf_cons_makedirs, cmdsOf_cons_runCmd]
    have hmp4s : ∀ j, j < p.max_iterations.toNat - 1 →
        findMp4Files env.listdir (frameDir p.base_output_dir (1 + j - 1)) ≠ [] := by
      intro j hj
      have harith : 1 + j - 1 = j := by omega
      rw [harith]
      exact hmp4 j (by omega)
    obtain ⟨hlen, hidx⟩ := runIterations_cmds env p (p.max_iterations.toNat - 1) 1 st1
      hmp4s hnb
    constructor
    · simp [hlen]
      omega
    · intro j hj
      cases j with
      | zero =>
        rw [List.getD_cons_zero]
        have ⟨pre, post, hdec⟩ := firstCmd_seed_decomp p
        exact ⟨pre, post, by rw [hdec, Nat.cast_zero, add_zero]⟩
      | succ j =>
        rw [List.getD_cons_succ]
        obtain ⟨pr, m, hpr⟩ := hidx j (by omega)
        obtain ⟨pre, post, hdec⟩ := loopCmd_seed_decomp p pr m (1 + j)
        refine ⟨pre, post, ?_⟩
        rw [hpr, hdec]
        have harith : 1 + j = j + 1 := Nat.add_comm 1 j
        rw [harith]

/-! ## Witness fixtures -/

/-- A concrete initial run state. -/
def stA : RunState := ⟨false, none, none⟩

/-- Concrete valid parameters with two iterations. -/
def pA : LoopParams :=
  { initial_prompt := "a scenic valley", seed := 42, input_image_path := none,
    base_output_dir := "out", max_iterations := 2, height := 512, width := 768,
    pipeline_config := "configs/ltxv.yaml", number_of_frames := 96,
    inference_py := "inference.py", delay_between_iterations := 1,
    stitch_videos := false, stitched_output_filename := "final_stitched_video.mp4" }

/-- A concrete quiet environment: every directory holds `output.mp4`,
no control signals ever arrive. -/
def envA : LoopEnv :=
  { listdir := fun _ => some ["output.mp4"], queuedAt := fun _ => [],
    arrivingAt := fun _ => [], stitchResult := fun _ d f => pathJoin d f }

set_option maxRecDepth 10000 in
/-- Witness for C1 at a concrete valid two-iteration run. -/
theorem claim1_seed_schedule_witness :
    (cmdsOf (runFeedbackLoop envA pA stA).1).length = pA.max_iterations.toNat ∧
    ∀ j, j < pA.max_iterations.toNat → ∃ pre post,
      (cmdsOf (runFeedbackLoop envA pA stA).1).getD j [] =
        pre ++ ["--seed", toString (pA.seed + (j : Int))] ++ post :=
  claim1_seed_schedule envA pA stA (by decide) (by decide) (by decide)

/-- Missing-output propagation: if the directories consulted for the
first `d` iterations starting at `i` yield units but the one consulted
at relative position `d` yields none, the loop raises
`FileNotFoundError` naming that directory, runs exactly `d` generation
invocations, and never reaches the Stitcher. -/
theorem runIterations_missing (env : LoopEnv) (p : LoopParams) :
    ∀ (r d i : Nat) (st : RunState), d < r →
    (∀ j, j < d → findMp4Files env.listdir (frameDir p.base_output_dir (i + j - 1)) ≠ []) →
    findMp4Files env.listdir (frameDir p.base_output_dir (i + d - 1)) = [] →
    (runIterations env p st i r).2.1 ≠ .blocked →
    (runIterations env p st i r).2.1 =
      .error (.fileNotFoundError
        ("No .mp4 file found in " ++ frameDir p.base_output_dir (i + d - 1))) ∧
    (cmdsOf (runIterations env p st i r).1).length = d ∧
    stitchCallsOf (runIterations env p st i r).1 = [] := by
  intro r
  induction r with
  | zero => intro d i st hd; exact absurd hd (Nat.not_lt_zero d)
  | succ r ih =>
    intro d i st hd hok hfail hnb
    cases hcp : checkPauseStatus st (env.queuedAt i) (env.arrivingAt i) with
    | none =>
      rw [runIterations_blocked env p st i r hcp] at hnb
      exact absurd rfl hnb
    | some st1 =>
      cases d with
      | zero =>
        rw [Nat.add_zero] at hfail
        have heq : runIterations env p st i (r + 1) =
            ([], .error (.fileNotFoundError
              ("No .mp4 file found in " ++ frameDir p.base_output_dir (i - 1))), st1) := by
          simp [runIterations, hcp, hfail]
        rw [heq]
        exact ⟨by rw [Nat.add_zero], rfl, rfl⟩
      | succ d =>
        have hne := hok 0 (Nat.succ_pos d)
        rw [Nat.add_zero] at hne
        cases hm : findMp4Files env.listdir (frameDir p.base_output_dir (i - 1)) with
        | nil => exact absurd hm hne
        | cons f fs =>
          have heq : runIterations env p st i (r + 1) =
              (.runCmd (loopCmd p (promptStr st1.current_prompt)
                  (pathJoin (frameDir p.base_output_dir (i - 1)) f) i) ::
               .sleep p.delay_between_iterations ::
               (runIterations env p st1 (i + 1) r).1,
               (runIterations env p st1 (i + 1) r).2.1,
               (runIterations env p st1 (i + 1) r).2.2) := by
            simp [runIterations, hcp, hm]
          rw [heq] at hnb ⊢
          have hok1 : ∀ j, j < d →
              findMp4Files env.listdir (frameDir p.base_output_dir (i + 1 + j - 1)) ≠ [] := by
            intro j hj
            have := hok (j + 1) (Nat.succ_lt_succ hj)
            have harith : i + (j + 1) - 1 = i + 1 + j - 1 := by omega
            rwa [harith] at this
          have hfail1 : findMp4Files env.listdir
              (frameDir p.base_output_dir (i + 1 + d - 1)) = [] := by
            have harith : i + (d + 1) - 1 = i + 1 + d - 1 := by omega
            rwa [harith] at hfail
          obtain ⟨hres, hlen, hstitch⟩ := ih d (i + 1) st1 (by omega) hok1 hfail1 hnb
          refine ⟨?_, ?_, ?_⟩
          · rw [hres]
            have harith : i + 1 + d - 1 = i + (d + 1) - 1 := by omega
            rw [harith]
          · rw [cmdsOf_cons_runCmd, cmdsOf_cons_sleep, List.length_cons, hlen]
          · rw [stitchCallsOf_cons_runCmd, stitchCallsOf_cons_sleep, hstitch]

/-- C4.  If iteration `k`'s output directory (`k < N-1`) yields no
output unit while all earlier ones did, the run raises
`FileNotFoundError` naming `frame_{k:03}`, exactly `k+1` generation
invocations occur (iterations `0..k`; nothing after `k` is invoked),
and the Stitcher is never reached. -/
theorem claim4_missing_output (env : LoopEnv) (p : LoopParams) (st0 : RunState)
    (k : Nat) (hv : validParams p) (hk : k < p.max_iterations.toNat - 1)
    (hok : ∀ j, j < k → findMp4Files env.listdir (frameDir p.base_output_dir j) ≠ [])
    (hfail : findMp4Files env.listdir (frameDir p.base_output_dir k) = [])
    (hnb : (runFeedbackLoop env p st0).2.1 ≠ .blocked) :
    (runFeedbackLoop env p st0).2.1 =
      .error (.fileNotFoundError
        ("No .mp4 file found in " ++ frameDir p.base_output_dir k)) ∧
    (cmdsOf (runFeedbackLoop env p st0).1).length = k + 1 ∧
    stitchCallsOf (runFeedbackLoop env p st0).1 = [] := by
  cases hcp : checkPauseStatus { st0 with current_prompt := some p.initial_prompt }
      (env.queuedAt 0) (env.arrivingAt 0) with
  | none =>
    rw [runFeedbackLoop_blocked_eq env p st0 hcp] at hnb
    exact absurd rfl hnb
  | some st1 =>
    rw [runFeedbackLoop_valid_eq env p st0 st1 hv hcp] at hnb ⊢
    have hok1 : ∀ j, j < k →
        findMp4Files env.listdir (frameDir p.base_output_dir (1 + j - 1)) ≠ [] := by
      intro j hj
      have harith : 1 + j - 1 = j := by omega
      rw [harith]
      exact hok j hj
    have hfail1 : findMp4Files env.listdir (frameDir p.base_output_dir (1 + k - 1)) = [] := by
      have harith : 1 + k - 1 = k := by omega
      rwa [harith]
    obtain ⟨hres, hlen, hstitch⟩ := runIterations_missing env p
      (p.max_iterations.toNat - 1) k 1 st1 hk hok1 hfail1 hnb
    have harith : 1 + k - 1 = k := by omega
    rw [harith] at hres
    refine ⟨hres, ?_, ?_⟩
    · rw [cmdsOf_cons_makedirs, cmdsOf_cons_runCmd, List.length_cons, hlen]
    · rw [stitchCallsOf_cons_makedirs, stitchCallsOf_cons_runCmd, hstitch]

/-- A concrete environment where `frame_001`'s directory is empty
(three-iteration run failing at the check before iteration 2). -/
def envB : LoopEnv :=
  { listdir := fun d => if d = "out/frame_001" then some [] else some ["output.mp4"],
    queuedAt := fun _ => [], arrivingAt := fun _ => [],
    stitchResult := fun _ d f => pathJoin d f }

/-- Concrete valid parameters with three iterations. -/
def pB : LoopParams := { pA with max_iterations := 3 }

set_option maxRecDepth 10000 in
/-- Witness for C4: with `frame_001` empty in a three-iteration run,
the loop fails with `FileNotFoundError` on `out/frame_001` after
exactly two invocations and no stitch call. -/
theorem claim4_missing_output_witness :
    (runFeedbackLoop envB pB stA).2.1 =
      .error (.fileNotFoundError ("No .mp4 file found in " ++ frameDir "out" 1)) ∧
    (cmdsOf (runFeedbackLoop envB pB stA).1).length = 1 + 1 ∧
    stitchCallsOf (runFeedbackLoop envB pB stA).1 = [] :=
  claim4_missing_output envB pB stA 1 (by decide) (by decide) (by decide) (by decide)
    (by decide)

theorem stitchCallsOf_append (l₁ l₂ : List Event) :
    stitchCallsOf (l₁ ++ l₂) = stitchCallsOf l₁ ++ stitchCallsOf l₂ := by
  simp [stitchCallsOf, List.filterMap_append]

/-- Completion factorization: when every consulted directory yields an
output unit and no checkpoint blocks, the loop's trace is its iteration
events (which contain no Stitcher call) followed by the epilogue, whose
result it returns. -/
theorem runIterations_complete (env : LoopEnv) (p : LoopParams) :
    ∀ (r i : Nat) (st : RunState),
    (∀ j, j < r → findMp4Files env.listdir (frameDir p.base_output_dir (i + j - 1)) ≠ []) →
    (runIterations env p st i r).2.1 ≠ .blocked →
    ∃ stLast evs0,
      runIterations env p st i r =
        (evs0 ++ (finishLoop env p stLast (i + r)).1,
         (finishLoop env p stLast (i + r)).2.1,
         (finishLoop env p stLast (i + r)).2.2) ∧
      stitchCallsOf evs0 = [] := by
  intro r
  induction r with
  | zero =>
    intro i st _ _
    exact ⟨st, [], by simp [runIterations], rfl⟩
  | succ r ih =>
    intro i st hmp4 hnb
    cases hcp : checkPauseStatus st (env.queuedAt i) (env.arrivingAt i) with
    | none =>
      rw [runIterations_blocked env p st i r hcp] at hnb
      exact absurd rfl hnb
    | some st1 =>
      cases hm : findMp4Files env.listdir (frameDir p.base_output_dir (i - 1)) with
      | nil =>
        have := hmp4 0 (Nat.succ_pos r)
        rw [Nat.add_zero] at this
        exact absurd hm this
      | cons f fs =>
        have heq : runIterations env p st i (r + 1) =
            (.runCmd (loopCmd p (promptStr st1.current_prompt)
                (pathJoin (frameDir p.base_output_dir (i - 1)) f) i) ::
             .sleep p.delay_between_iterations ::
             (runIterations env p st1 (i + 1) r).1,
             (runIterations env p st1 (i + 1) r).2.1,
             (runIterations env p st1 (i + 1) r).2.2) := by
          simp [runIterations, hcp, hm]
        rw [heq] at hnb ⊢
        have hmp4s : ∀ j, j < r →
            findMp4Files env.listdir (frameDir p.base_output_dir (i + 1 + j - 1)) ≠ [] := by
          intro j hj
          have := hmp4 (j + 1) (Nat.succ_lt_succ hj)
          have harith : i + (j + 1) - 1 = i + 1 + j - 1 := by omega
          rwa [harith] at this
        obtain ⟨stLast, evs0, hfact, hsc⟩ := ih (i + 1) st1 hmp4s hnb
        have harith : i + 1 + r = i + (r + 1) := by omega
        rw [harith] at hfact
        refine ⟨stLast,
          .runCmd (loopCmd p (promptStr st1.current_prompt)
            (pathJoin (frameDir p.base_output_dir (i - 1)) f) i) ::
          .sleep p.delay_between_iterations :: evs0, ?_, ?_⟩
        · rw [hfact]
          rfl
        · rw [stitchCallsOf_cons_runCmd, stitchCallsOf_cons_sleep, hsc]

/-- C5.  When aggregation is requested and all iterations complete:
with no collected output the Stitcher is never invoked and the run
returns no artifact; with at least one collected output the Stitcher is
invoked exactly once, with exactly the ordered collected list, and its
result is returned. -/
theorem claim5_aggregation (env : LoopEnv) (p : LoopParams) (st0 : RunState)
    (hv : validParams p) (hstitch : p.stitch_videos = true)
    (hmp4 : ∀ j, j < p.max_iterations.toNat - 1 →
      findMp4Files env.listdir (frameDir p.base_output_dir j) ≠ [])
    (hnb : (runFeedbackLoop env p st0).2.1 ≠ .blocked) :
    (collectVideoPaths env.listdir p.base_output_dir p.max_iterations.toNat = [] →
      stitchCallsOf (runFeedbackLoop env p st0).1 = [] ∧
      (runFeedbackLoop env p st0).2.1 = .ok none) ∧
    (collectVideoPaths env.listdir p.base_output_dir p.max_iterations.toNat ≠ [] →
      stitchCallsOf (runFeedbackLoop env p st0).1 =
        [(collectVideoPaths env.listdir p.base_output_dir p.max_iterations.toNat,
          p.base_output_dir, p.stitched_output_filename)] ∧
      (runFeedbackLoop env p st0).2.1 =
        .ok (some (env.stitchResult
          (collectVideoPaths env.listdir p.base_output_dir p.max_iterations.toNat)
          p.base_output_dir p.stitched_output_filename))) := by
  have hN : 1 ≤ p.max_iterations.toNat := by
    have := hv.2.1
    omega
  cases hcp : checkPauseStatus { st0 with current_prompt := some p.initial_prompt }
      (env.queuedAt 0) (env.arrivingAt 0) with
  | none =>
    rw [runFeedbackLoop_blocked_eq env p st0 hcp] at hnb
    exact absurd rfl hnb
  | some st1 =>
    rw [runFeedbackLoop_valid_eq env p st0 st1 hv hcp] at hnb ⊢
    have hmp4s : ∀ j, j < p.max_iterations.toNat - 1 →
        findMp4Files env.listdir (frameDir p.base_output_dir (1 + j - 1)) ≠ [] := by
      intro j hj
      have harith : 1 + j - 1 = j := by omega
      rw [harith]
      exact hmp4 j hj
    obtain ⟨stLast, evs0, hfact, hsc⟩ := runIterations_complete env p
      (p.max_iterations.toNat - 1) 1 st1 hmp4s hnb
    have harith : 1 + (p.max_iterations.toNat - 1) = p.max_iterations.toNat := by omega
    rw [harith] at hfact
    rw [hfact]
    cases hc : collectVideoPaths env.listdir p.base_output_dir p.max_iterations.toNat with
    | nil =>
      have hfin : finishLoop env p stLast p.max_iterations.toNat =
          ([], .ok none,
           { stLast with current_prompt := none, current_image := none }) := by
        simp [finishLoop, hstitch, hc]
      rw [hfin]
      refine ⟨fun _ => ⟨?_, rfl⟩, fun hne => absurd rfl hne⟩
      rw [stitchCallsOf_cons_makedirs, stitchCallsOf_cons_runCmd, List.append_nil,
        hsc]
    | cons f rest =>
      have hfin : finishLoop env p stLast p.max_iterations.toNat =
          ([.stitchCall (f :: rest) p.base_output_dir p.stitched_output_filename],
           .ok (some (env.stitchResult (f :: rest) p.base_output_dir
             p.stitched_output_filename)),
           { stLast with current_prompt := none, current_image := none }) := by
        simp [finishLoop, hstitch, hc]
      rw [hfin]
      refine ⟨fun he => absurd he (List.cons_ne_nil f rest), fun _ => ⟨?_, rfl⟩⟩
      rw [stitchCallsOf_cons_makedirs, stitchCallsOf_cons_runCmd,
        stitchCallsOf_append, hsc, List.nil_append, stitchCallsOf_cons_stitchCall,
        stitchCallsOf_nil]

/-- Concrete parameters requesting aggregation, three iterations. -/
def pC : LoopParams := { pA with max_iterations := 3, stitch_videos := true }

set_option maxRecDepth 10000 in
/-- Witness for C5 at a concrete aggregating three-iteration run: the
Stitcher is called once with the three collected outputs, in order. -/
theorem claim5_aggregation_witness :
    collectVideoPaths envA.listdir "out" 3 =
      ["out/frame_000/output.mp4", "out/frame_001/output.mp4",
       "out/frame_002/output.mp4"] ∧
    stitchCallsOf (runFeedbackLoop envA pC stA).1 =
      [(collectVideoPaths envA.listdir pC.base_output_dir pC.max_iterations.toNat,
        pC.base_output_dir, pC.stitched_output_filename)] ∧
    (runFeedbackLoop envA pC stA).2.1 =
      .ok (some (envA.stitchResult
        (collectVideoPaths envA.listdir pC.base_output_dir pC.max_iterations.toNat)
        pC.base_output_dir pC.stitched_output_filename)) :=
  ⟨by decide,
   (claim5_aggregation envA pC stA (by decide) (by decide) (by decide) (by decide)).2
     (by decide)⟩

/-- With no signals at a checkpoint and an unpaused state,
`check_pause_status` is the identity. -/
theorem checkPauseStatus_quiet {st : RunState} (hp : st.paused = false) :
    checkPauseStatus st [] [] = some st := by
  simp [checkPauseStatus, waitForResume, hp]

/-- With an empty signal schedule over the remaining checkpoints, every
remaining iteration uses the prompt held at entry. -/
theorem runIterations_const_prompt (env : LoopEnv) (p : LoopParams) :
    ∀ (r i : Nat) (st : RunState),
    st.paused = false →
    (∀ j, j < r → env.queuedAt (i + j) = [] ∧ env.arrivingAt (i + j) = []) →
    (∀ j, j < r → findMp4Files env.listdir (frameDir p.base_output_dir (i + j - 1)) ≠ []) →
    (cmdsOf (runIterations env p st i r).1).length = r ∧
    ∀ k, k < r → ∃ m, (cmdsOf (runIterations env p st i r).1).getD k [] =
      loopCmd p (promptStr st.current_prompt) m (i + k) := by
  intro r
  induction r with
  | zero =>
    intro i st _ _ _
    refine ⟨?_, fun k hk => absurd hk (Nat.not_lt_zero k)⟩
    show (cmdsOf (finishLoop env p st i).1).length = 0
    rw [cmdsOf_finishLoop]
    rfl
  | succ r ih =>
    intro i st hp hsig hmp4
    have hq0 := hsig 0 (Nat.succ_pos r)
    rw [Nat.add_zero] at hq0
    have hcp : checkPauseStatus st (env.queuedAt i) (env.arrivingAt i) = some st := by
      rw [hq0.1, hq0.2]
      exact checkPauseStatus_quiet hp
    have hne := hmp4 0 (Nat.succ_pos r)
    rw [Nat.add_zero] at hne
    cases hm : findMp4Files env.listdir (frameDir p.base_output_dir (i - 1)) with
    | nil => exact absurd hm hne
    | cons f fs =>
      have heq : runIterations env p st i (r + 1) =
          (.runCmd (loopCmd p (promptStr st.current_prompt)
              (pathJoin (frameDir p.base_output_dir (i - 1)) f) i) ::
           .sleep p.delay_between_iterations ::
           (runIterations env p st (i + 1) r).1,
           (runIterations env p st (i + 1) r).2.1,
           (runIterations env p st (i + 1) r).2.2) := by
        simp [runIterations, hcp, hm]
      rw [heq]
      have hsig1 : ∀ j, j < r → env.queuedAt (i + 1 + j) = [] ∧
          env.arrivingAt (i + 1 + j) = [] := by
        intro j hj
        have := hsig (j + 1) (Nat.succ_lt_succ hj)
        have harith : i + (j + 1) = i + 1 + j := by omega
        rwa [harith] at this
      have hmp4s : ∀ j, j < r →
          findMp4Files env.listdir (frameDir p.base_output_dir (i + 1 + j - 1)) ≠ [] := by
        intro j hj
        have := hmp4 (j + 1) (Nat.succ_lt_succ hj)
        have harith : i + (j + 1) - 1 = i + 1 + j - 1 := by omega
        rwa [harith] at this
      obtain ⟨hlen, hidx⟩ := ih (i + 1) st hp hsig1 hmp4s
      rw [cmdsOf_cons_runCmd, cmdsOf_cons_sleep]
      refine ⟨by simp [hlen], ?_⟩
      intro k hk
      cases k with
      | zero =>
        exact ⟨pathJoin (frameDir p.base_output_dir (i - 1)) f,
          by rw [List.getD_cons_zero, Nat.add_zero]⟩
      | succ k =>
        obtain ⟨m, hm'⟩ := hidx k (Nat.lt_of_succ_lt_succ hk)
        refine ⟨m, ?_⟩
        rw [List.getD_cons_succ, hm']
        congr 1
        omega

/-- With a single `PROMPT:x` signal queued at checkpoint `t` and no
other signals, iterations before `t` keep the entry prompt and
iterations from `t` on use `x`. -/
theorem runIterations_prompt_switch (env : LoopEnv) (p : LoopParams) (x : String) :
    ∀ (r i : Nat) (st : RunState) (t : Nat),
    st.paused = false →
    i ≤ t → t < i + r →
    env.queuedAt t = ["PROMPT:" ++ x] →
    (∀ j, i ≤ j → j < i + r → j ≠ t → env.queuedAt j = []) →
    (∀ j, i ≤ j → j < i + r → env.arrivingAt j = []) →
    (∀ j, j < r → findMp4Files env.listdir (frameDir p.base_output_dir (i + j - 1)) ≠ []) →
    (cmdsOf (runIterations env p st i r).1).length = r ∧
    ∀ k, k < r → ∃ m, (cmdsOf (runIterations env p st i r).1).getD k [] =
      loopCmd p (if i + k < t then promptStr st.current_prompt else x) m (i + k) := by
  intro r
  induction r with
  | zero =>
    intro i st t _ hit hts
    omega
  | succ r ih =>
    intro i st t hp hit hts hqt hq harr hmp4
    have hne := hmp4 0 (Nat.succ_pos r)
    rw [Nat.add_zero] at hne
    cases hm : findMp4Files env.listdir (frameDir p.base_output_dir (i - 1)) with
    | nil => exact absurd hm hne
    | cons f fs =>
      have hmp4s : ∀ j, j < r →
          findMp4Files env.listdir (frameDir p.base_output_dir (i + 1 + j - 1)) ≠ [] := by
        intro j hj
        have := hmp4 (j + 1) (Nat.succ_lt_succ hj)
        have harith : i + (j + 1) - 1 = i + 1 + j - 1 := by omega
        rwa [harith] at this
      by_cases hi : i = t
      · -- the switching checkpoint: the drain applies `PROMPT:x`
        subst hi
        have hst' : checkPauseStatus st (env.queuedAt i) (env.arrivingAt i) =
            some { st with current_prompt := some x } := by
          rw [hqt, harr i le_rfl (by omega)]
          show waitForResume ([("PROMPT:" ++ x)].foldl applySignalDrain st) [] = _
          rw [List.foldl_cons, List.foldl_nil, applySignalDrain_prompt]
          exact @checkPauseStatus_quiet { st with current_prompt := some x } hp
        have heq : runIterations env p st i (r + 1) =
            (.runCmd (loopCmd p x
                (pathJoin (frameDir p.base_output_dir (i - 1)) f) i) ::
             .sleep p.delay_between_iterations ::
             (runIterations env p { st with current_prompt := some x } (i + 1) r).1,
             (runIterations env p { st with current_prompt := some x } (i + 1) r).2.1,
             (runIterations env p { st with current_prompt := some x } (i + 1) r).2.2) := by
          simp [runIterations, hst', hm, promptStr]
        rw [heq]
        have hsig1 : ∀ j, j < r → env.queuedAt (i + 1 + j) = [] ∧
            env.arrivingAt (i + 1 + j) = [] :=
          fun j hj => ⟨hq (i + 1 + j) (by omega) (by omega) (by omega),
            harr (i + 1 + j) (by omega) (by omega)⟩
        obtain ⟨hlen, hidx⟩ := runIterations_const_prompt env p r (i + 1)
          { st with current_prompt := some x } hp hsig1 hmp4s
        rw [cmdsOf_cons_runCmd, cmdsOf_cons_sleep]
        refine ⟨by simp [hlen], ?_⟩
        intro k hk
        cases k with
        | zero =>
          refine ⟨pathJoin (frameDir p.base_output_dir (i - 1)) f, ?_⟩
          rw [List.getD_cons_zero, Nat.add_zero, if_neg (by omega)]
        | succ k =>
          obtain ⟨m, hm'⟩ := hidx k (Nat.lt_of_succ_lt_succ hk)
          refine ⟨m, ?_⟩
          rw [List.getD_cons_succ, hm']
          simp only [promptStr]
          rw [if_neg (by omega)]
          congr 1
          omega
      · -- a quiet checkpoint before `t`
        have hi' : i < t := lt_of_le_of_ne hit hi
        have hcp : checkPauseStatus st (env.queuedAt i) (env.arrivingAt i) = some st := by
          rw [hq i le_rfl (by omega) hi, harr i le_rfl (by omega)]
          exact checkPauseStatus_quiet hp
        have heq : runIterations env p st i (r + 1) =
            (.runCmd (loopCmd p (promptStr st.current_prompt)
                (pathJoin (frameDir p.base_output_dir (i - 1)) f) i) ::
             .sleep p.delay_between_iterations ::
             (runIterations env p st (i + 1) r).1,
             (runIterations env p st (i + 1) r).2.1,
             (runIterations env p st (i + 1) r).2.2) := by
          simp [runIterations, hcp, hm]
        rw [heq]
        obtain ⟨hlen, hidx⟩ := ih (i + 1) st t hp (by omega) (by omega) hqt
          (fun j h1 h2 => hq j (by omega) (by omega))
          (fun j h1 h2 => harr j (by omega) (by omega)) hmp4s
        rw [cmdsOf_cons_runCmd, cmdsOf_cons_sleep]
        refine ⟨by simp [hlen], ?_⟩
        intro k hk
        cases k with
        | zero =>
          refine ⟨pathJoin (frameDir p.base_output_dir (i - 1)) f, ?_⟩
          rw [List.getD_cons_zero, Nat.add_zero, if_pos hi']
        | succ k =>
          obtain ⟨m, hm'⟩ := hidx k (Nat.lt_of_succ_lt_succ hk)
          refine ⟨m, ?_⟩
          rw [List.getD_cons_succ, hm']
          have harith : i + 1 + k = i + (k + 1) := by omega
          rw [harith]

/-- C2 (amended).  For iterations `i ≥ 1` the snapshot semantics hold:
with a single `SetPrompt(x)` drained at the checkpoint before iteration
`t` (`1 ≤ t < N`) and no other signals, iterations `1..t-1` use the
initial prompt, iterations `t..N-1` use `x`.  Iteration 0, however,
always uses the `initial_prompt` parameter (its command is built from
the parameter, not from the mutable current prompt). -/
theorem claim2_prompt_snapshot (env : LoopEnv) (p : LoopParams) (st0 : RunState)
    (t : Nat) (x : String)
    (hv : validParams p) (hp0 : st0.paused = false)
    (ht1 : 1 ≤ t) (htN : t < p.max_iterations.toNat)
    (hqt : env.queuedAt t = ["PROMPT:" ++ x])
    (hq : ∀ j, j ≠ t → env.queuedAt j = [])
    (harr : ∀ j, env.arrivingAt j = [])
    (hmp4 : ∀ j, j < p.max_iterations.toNat - 1 →
      findMp4Files env.listdir (frameDir p.base_output_dir j) ≠ []) :
    (cmdsOf (runFeedbackLoop env p st0).1).length = p.max_iterations.toNat ∧
    (cmdsOf (runFeedbackLoop env p st0).1).getD 0 [] = firstCmd p ∧
    ∀ k, 1 ≤ k → k < p.max_iterations.toNat → ∃ m,
      (cmdsOf (runFeedbackLoop env p st0).1).getD k [] =
        loopCmd p (if k < t then p.initial_prompt else x) m k := by
  have hN : 1 ≤ p.max_iterations.toNat := by
    have := hv.2.1
    omega
  have hcp : checkPauseStatus { st0 with current_prompt := some p.initial_prompt }
      (env.queuedAt 0) (env.arrivingAt 0) =
      some { st0 with current_prompt := some p.initial_prompt } := by
    rw [hq 0 (by omega), harr 0]
    exact checkPauseStatus_quiet hp0
  rw [runFeedbackLoop_valid_eq env p st0 _ hv hcp]
  have hmp4s : ∀ j, j < p.max_iterations.toNat - 1 →
      findMp4Files env.listdir (frameDir p.base_output_dir (1 + j - 1)) ≠ [] := by
    intro j hj
    have harith : 1 + j - 1 = j := by omega
    rw [harith]
    exact hmp4 j hj
  obtain ⟨hlen, hidx⟩ := runIterations_prompt_switch env p x
    (p.max_iterations.toNat - 1) 1 { st0 with current_prompt := some p.initial_prompt }
    t hp0 ht1 (by omega) hqt
    (fun j h1 h2 hj => hq j hj) (fun j h1 h2 => harr j) hmp4s
  rw [cmdsOf_cons_makedirs, cmdsOf_cons_runCmd]
  refine ⟨by simp [hlen]; omega, List.getD_cons_zero, ?_⟩
  intro k hk1 hkN
  cases k with
  | zero => omega
  | succ k =>
    obtain ⟨m, hm⟩ := hidx k (by omega)
    refine ⟨m, ?_⟩
    rw [List.getD_cons_succ, hm]
    simp only [promptStr]
    have harith : 1 + k = k + 1 := by omega
    rw [harith]

/-- The environment of the C2 counterexample: a `SetPrompt("XY")`
already queued at the checkpoint drained before iteration 0. -/
def envC2c : LoopEnv :=
  { envA with queuedAt := fun j => if j = 0 then ["PROMPT:XY"] else [] }

set_option maxRecDepth 10000 in
/-- C2 counterexample.  The drain before iteration 0 completes with
current prompt `"XY"`, yet iteration 0's command carries
`--prompt "a scenic valley"` (the parameter), not `"XY"`: the claimed
snapshot semantics fail at `i = 0`. -/
theorem claim2_prompt_counterexample :
    checkPauseStatus { stA with current_prompt := some pA.initial_prompt }
        (envC2c.queuedAt 0) (envC2c.arrivingAt 0) =
      some ⟨false, some "XY", none⟩ ∧
    ((cmdsOf (runFeedbackLoop envC2c pA stA).1).getD 0 []).getD 3 "" =
      "a scenic valley" ∧
    ("a scenic valley" : String) ≠ "XY" ∧
    ((cmdsOf (runFeedbackLoop envC2c pA stA).1).getD 0 []).getD 2 "" = "--prompt" :=
  ⟨by decide, by decide, by decide, by decide⟩

/-- The environment of the C2 witness: a `SetPrompt("XY")` queued at
the checkpoint drained before iteration 1, nothing else. -/
def envC2w : LoopEnv :=
  { envA with queuedAt := fun j => if j = 1 then ["PROMPT:" ++ "XY"] else [] }

set_option maxRecDepth 10000 in
/-- Witness for the amended C2 on a concrete three-iteration run with
the prompt switched at the checkpoint before iteration 1. -/
theorem claim2_prompt_snapshot_witness :
    (cmdsOf (runFeedbackLoop envC2w pB stA).1).length = pB.max_iterations.toNat ∧
    (cmdsOf (runFeedbackLoop envC2w pB stA).1).getD 0 [] = firstCmd pB ∧
    ∀ k, 1 ≤ k → k < pB.max_iterations.toNat → ∃ m,
      (cmdsOf (runFeedbackLoop envC2w pB stA).1).getD k [] =
        loopCmd pB (if k < 1 then pB.initial_prompt else "XY") m k :=
  claim2_prompt_snapshot envC2w pB stA 1 "XY" (by decide) (by decide) (by decide)
    (by decide) (by decide)
    (by intro j hj; simp only [envC2w]; rw [if_neg hj])
    (by intro j; rfl) (by decide)

/-- C3.  The pause protocol: (1) whenever `check_pause_status` returns,
the pause flag is clear, so everything after a checkpoint — including
building and invoking the iteration's generation command — runs
unpaused; (2) if the drain at the checkpoint before iteration `i`
leaves the flag set and no `Resume` ever arrives, the worker blocks
there and produces no further event (in particular no generation
invocation occurs while paused); (3) a `Resume` arriving during the
wait unblocks the worker with the flag cleared; (4)/(5) `SetPrompt` and
`SetImage` signals arriving while paused are still applied to the
mutable run state during the wait. -/
theorem claim3_pause_protocol :
    (∀ (st : RunState) (queued arriving : List String) (st' : RunState),
      checkPauseStatus st queued arriving = some st' → st'.paused = false) ∧
    (∀ (env : LoopEnv) (p : LoopParams) (st : RunState) (i r : Nat),
      ((env.queuedAt i).foldl applySignalDrain st).paused = true →
      "RESUME" ∉ env.arrivingAt i →
      runIterations env p st i (r + 1) =
        ([], .blocked, blockedState st (env.queuedAt i) (env.arrivingAt i))) ∧
    (∀ (st : RunState) (queued arriving : List String), "RESUME" ∈ arriving →
      ∃ st', checkPauseStatus st queued arriving = some st' ∧ st'.paused = false) ∧
    (∀ (st : RunState) (x : String) (rest : List String), st.paused = true →
      waitForResume st (("PROMPT:" ++ x) :: rest) =
        waitForResume { st with current_prompt := some x } rest) ∧
    (∀ (st : RunState) (x : String) (rest : List String), st.paused = true →
      waitForResume st (("IMAGE:" ++ x) :: rest) =
        waitForResume { st with current_image := some x } rest) := by
  refine ⟨fun st q a st' h => checkPauseStatus_paused h,
    fun env p st i r hp hnr =>
      runIterations_blocked env p st i r (checkPauseStatus_none hp hnr),
    fun st q a hr => ?_, fun st x rest hp => ?_, fun st x rest hp => ?_⟩
  · obtain ⟨st', h⟩ := checkPauseStatus_some_of_resume st q hr
    exact ⟨st', h, checkPauseStatus_paused h⟩
  · show (if st.paused = true then _ else _) = _
    rw [if_pos hp, applySignalPaused_prompt]
  · show (if st.paused = true then _ else _) = _
    rw [if_pos hp, applySignalPaused_image]

/-- Environment for the C3 witness: a `Pause` queued at checkpoint 1,
never resumed. -/
def envP : LoopEnv := { envA with queuedAt := fun j => if j = 1 then ["PAUSE"] else [] }

set_option maxRecDepth 10000 in
/-- Witness for C3 at concrete inputs: the loop blocks with an empty
trace on an unresumed pause; a `Resume` unblocks with the flag clear;
a `SetPrompt` arriving while paused is applied during the wait. -/
theorem claim3_pause_protocol_witness :
    runIterations envP pA stA 1 1 =
      ([], .blocked, blockedState stA (envP.queuedAt 1) (envP.arrivingAt 1)) ∧
    (∃ st', checkPauseStatus stA ["PAUSE"] ["IMAGE:pic.png", "RESUME"] = some st' ∧
      st'.paused = false) ∧
    waitForResume ⟨true, none, none⟩ (("PROMPT:" ++ "new prompt") :: ["RESUME"]) =
      waitForResume ⟨true, some "new prompt", none⟩ ["RESUME"] :=
  ⟨claim3_pause_protocol.2.1 envP pA stA 1 0 (by decide) (by decide),
   claim3_pause_protocol.2.2.1 stA ["PAUSE"] ["IMAGE:pic.png", "RESUME"] (by decide),
   claim3_pause_protocol.2.2.2.1 ⟨true, none, none⟩ "new prompt" ["RESUME"] rfl⟩

/-- On invalid parameters (and a checkpoint-0 drain that returns), the
run raises a `ValueError` with an empty event trace, returning the
post-drain state. -/
theorem runFeedbackLoop_invalid_eq (env : LoopEnv) (p : LoopParams) (st0 st1 : RunState)
    (hcp : checkPauseStatus { st0 with current_prompt := some p.initial_prompt }
      (env.queuedAt 0) (env.arrivingAt 0) = some st1)
    (hinv : ¬validParams p) :
    ∃ msg, runFeedbackLoop env p st0 = ([], .error (.valueError msg), st1) := by
  simp only [runFeedbackLoop, hcp]
  by_cases h1 : p.initial_prompt = "" ∨ pyStrip p.initial_prompt = ""
  · rw [if_pos h1]; exact ⟨_, rfl⟩
  · rw [if_neg h1]
    by_cases h2 : p.max_iterations < 1
    · rw [if_pos h2]; exact ⟨_, rfl⟩
    · rw [if_neg h2]
      by_cases h3 : p.height < 1 ∨ p.width < 1
      · rw [if_pos h3]; exact ⟨_, rfl⟩
      · rw [if_neg h3]
        by_cases h4 : p.number_of_frames < 1
        · rw [if_pos h4]; exact ⟨_, rfl⟩
        · rw [if_neg h4]
          by_cases h5 : p.delay_between_iterations < 0
          · rw [if_pos h5]; exact ⟨_, rfl⟩
          · exfalso
            rw [not_or] at h3
            exact hinv ⟨h1, by omega, by omega, by omega, by omega, by omega⟩

/-- C8 (amended).  A parameter set violating a validation rule makes
`run_feedback_loop` raise `ValueError` with no external side effect —
the event trace is empty, so no process is invoked and no directory is
created (or, if a drained `Pause` is never resumed, the run blocks
before validating, still with no external side effect).  The mutable
run state, however, is *not* left unchanged: before validation the
current prompt is set to the initial prompt and the checkpoint-0 drain
applies any queued signals, and that post-drain state is what the
failing call leaves behind. -/
theorem claim8_validation_side_effects (env : LoopEnv) (p : LoopParams) (st0 : RunState)
    (hinv : ¬validParams p) :
    (runFeedbackLoop env p st0).1 = [] ∧
    ((runFeedbackLoop env p st0).2.1 = .blocked ∨
      ∃ msg, (runFeedbackLoop env p st0).2.1 = .error (.valueError msg)) ∧
    (∀ st1, checkPauseStatus { st0 with current_prompt := some p.initial_prompt }
        (env.queuedAt 0) (env.arrivingAt 0) = some st1 →
      (runFeedbackLoop env p st0).2.2 = st1) := by
  cases hcp : checkPauseStatus { st0 with current_prompt := some p.initial_prompt }
      (env.queuedAt 0) (env.arrivingAt 0) with
  | none =>
    rw [runFeedbackLoop_blocked_eq env p st0 hcp]
    exact ⟨rfl, Or.inl rfl, fun st1 hcp' => Option.noConfusion hcp'⟩
  | some st1 =>
    obtain ⟨msg, heq⟩ := runFeedbackLoop_invalid_eq env p st0 st1 hcp hinv
    rw [heq]
    exact ⟨rfl, Or.inr ⟨msg, rfl⟩, fun st1' hcp' => by cases hcp'; rfl⟩

/-- Invalid parameters: `max_iterations = 0`. -/
def pBad : LoopParams := { pA with max_iterations := 0 }

set_option maxRecDepth 10000 in
/-- C8 counterexample.  With `max_iterations = 0` the run raises
`ValueError` and performs no external side effect, but the mutable run
state is changed by the call: `current_prompt` has been set to the
initial prompt, so the state differs from the pre-call state. -/
theorem claim8_state_counterexample :
    runFeedbackLoop envA pBad stA =
      ([], .error (.valueError "max_iterations must be at least 1"),
       ⟨false, some "a scenic valley", none⟩) ∧
    (⟨false, some "a scenic valley", none⟩ : RunState) ≠ stA :=
  ⟨by decide, by decide⟩

set_option maxRecDepth 10000 in
/-- Witness for the amended C8 at concrete invalid parameters. -/
theorem claim8_validation_side_effects_witness :
    (runFeedbackLoop envA pBad stA).1 = [] ∧
    ((runFeedbackLoop envA pBad stA).2.1 = .blocked ∨
      ∃ msg, (runFeedbackLoop envA pBad stA).2.1 = .error (.valueError msg)) ∧
    (∀ st1, checkPauseStatus { stA with current_prompt := some pBad.initial_prompt }
        (envA.queuedAt 0) (envA.arrivingAt 0) = some st1 →
      (runFeedbackLoop envA pBad stA).2.2 = st1) :=
  claim8_validation_side_effects envA pBad stA (by decide)

/-! ## Environment congruence (C10 machinery) -/

theorem collectVideoPaths_congr {ld1 ld2 : String → Option (List String)}
    (h : ∀ d, findMp4Files ld1 d = findMp4Files ld2 d) (base : String) (n : Nat) :
    collectVideoPaths ld1 base n = collectVideoPaths ld2 base n := by
  unfold collectVideoPaths
  induction List.range n with
  | nil => rfl
  | cons a l ih => simp only [List.filterMap_cons, h, ih]

theorem finishLoop_congr {env1 env2 : LoopEnv} (p : LoopParams)
    (h : ∀ d, findMp4Files env1.listdir d = findMp4Files env2.listdir d)
    (hsr : env1.stitchResult = env2.stitchResult) (st : RunState) (n : Nat) :
    finishLoop env1 p st n = finishLoop env2 p st n := by
  unfold finishLoop
  rw [collectVideoPaths_congr h, hsr]

theorem runIterations_congr {env1 env2 : LoopEnv} (p : LoopParams)
    (h : ∀ d, findMp4Files env1.listdir d = findMp4Files env2.listdir d)
    (hq : env1.queuedAt = env2.queuedAt) (ha : env1.arrivingAt = env2.arrivingAt)
    (hsr : env1.stitchResult = env2.stitchResult) :
    ∀ (r i : Nat) (st : RunState),
    runIterations env1 p st i r = runIterations env2 p st i r := by
  intro r
  induction r with
  | zero =>
    intro i st
    show finishLoop env1 p st i = finishLoop env2 p st i
    exact finishLoop_congr p h hsr st i
  | succ r ih =>
    intro i st
    simp only [runIterations]
    rw [hq, ha]
    cases checkPauseStatus st (env2.queuedAt i) (env2.arrivingAt i) with
    | none => rfl
    | some st1 =>
      rw [h]
      cases findMp4Files env2.listdir (frameDir p.base_output_dir (i - 1)) with
      | nil => rfl
      | cons f fs => simp only [ih]

theorem runFeedbackLoop_congr {env1 env2 : LoopEnv} (p : LoopParams) (st0 : RunState)
    (h : ∀ d, findMp4Files env1.listdir d = findMp4Files env2.listdir d)
    (hq : env1.queuedAt = env2.queuedAt) (ha : env1.arrivingAt = env2.arrivingAt)
    (hsr : env1.stitchResult = env2.stitchResult) :
    runFeedbackLoop env1 p st0 = runFeedbackLoop env2 p st0 := by
  unfold runFeedbackLoop
  rw [hq, ha]
  simp only [runIterations_congr p h hq ha hsr]

/-- C10.  `_find_mp4_files` is total: (1) a directory whose listing
raises `OSError` yields the empty list; (2) such a directory is
indistinguishable, through `_find_mp4_files`, from a readable directory
containing no `.mp4` file; (3) consequently two runs whose environments
agree on `_find_mp4_files` (and on the control schedule and Stitcher)
behave identically — so a missing directory fails the next iteration
exactly like an `.mp4`-less one mid-run, and is silently skipped during
aggregation collection. -/
theorem claim10_findMp4_total :
    (∀ (listdir : String → Option (List String)) (d : String),
      listdir d = none → findMp4Files listdir d = []) ∧
    (∀ (ld1 ld2 : String → Option (List String)) (d : String) (fs : List String),
      ld1 d = none → ld2 d = some fs →
      (∀ f ∈ fs, pyEndsWith f ".mp4" = false) →
      (∀ x, x ≠ d → ld1 x = ld2 x) →
      ∀ x, findMp4Files ld1 x = findMp4Files ld2 x) ∧
    (∀ (env1 env2 : LoopEnv) (p : LoopParams) (st0 : RunState),
      (∀ dir, findMp4Files env1.listdir dir = findMp4Files env2.listdir dir) →
      env1.queuedAt = env2.queuedAt → env1.arrivingAt = env2.arrivingAt →
      env1.stitchResult = env2.stitchResult →
      runFeedbackLoop env1 p st0 = runFeedbackLoop env2 p st0) := by
  refine ⟨fun ld d h => by simp [findMp4Files, h], ?_,
    fun env1 env2 p st0 h hq ha hsr => runFeedbackLoop_congr p st0 h hq ha hsr⟩
  intro ld1 ld2 d fs h1 h2 hfs hagree x
  by_cases hx : x = d
  · subst hx
    simp only [findMp4Files, h1, h2]
    exact (List.filter_eq_nil_iff.mpr (fun a ha => by simp [hfs a ha])).symm
  · simp only [findMp4Files, hagree x hx]

/-- Environment with an unreadable `frame_001` directory. -/
def envB' : LoopEnv :=
  { envA with
    listdir := fun d => if d = "out/frame_001" then none else some ["output.mp4"] }

set_option maxRecDepth 10000 in
/-- Witness for C10: an unreadable `frame_001` behaves exactly like the
readable-but-empty `frame_001` of `envB`, for `_find_mp4_files` and
for the whole run. -/
theorem claim10_findMp4_total_witness :
    findMp4Files envB'.listdir "out/frame_001" = [] ∧
    runFeedbackLoop envB' pB stA = runFeedbackLoop envB pB stA :=
  ⟨claim10_findMp4_total.1 envB'.listdir "out/frame_001" (by decide),
   claim10_findMp4_total.2.2 envB' envB pB stA
     (by
       intro dir
       by_cases hd : dir = "out/frame_001" <;>
         simp [envB', envB, envA, findMp4Files, hd])
     rfl rfl rfl⟩

/-! ## Image-signal noninterference (C9 machinery) -/

/-- Erase all `IMAGE:` signals from a signal list. -/
def stripImages (l : List String) : List String :=
  l.filter (fun sig => !pyStartsWith sig "IMAGE:")

/-- Two run states that agree on everything the loop ever reads when
building a command or branching: the pause flag and the current
prompt (`current_image` is written but never read). -/
def promptEquiv (st st' : RunState) : Prop :=
  st.paused = st'.paused ∧ st.current_prompt = st'.current_prompt

theorem promptEquiv_refl (st : RunState) : promptEquiv st st := ⟨Eq.refl _, Eq.refl _⟩

theorem promptEquiv.trans {s t u : RunState} (h1 : promptEquiv s t)
    (h2 : promptEquiv t u) : promptEquiv s u :=
  ⟨h1.1.trans h2.1, h1.2.trans h2.2⟩

/-- Equivalence of optional run states. -/
def optionEquiv : Option RunState → Option RunState → Prop
  | none, none => True
  | some s, some s' => promptEquiv s s'
  | _, _ => False

/-- Any signal starting with `IMAGE:` is literally `"IMAGE:" ++ y`. -/
theorem eq_image_append {sig : String} (h : pyStartsWith sig "IMAGE:" = true) :
    ∃ y, sig = "IMAGE:" ++ y := by
  unfold pyStartsWith at h
  obtain ⟨t, ht⟩ := List.isPrefixOf_iff_prefix.mp h
  refine ⟨⟨t⟩, String.ext ?_⟩
  rw [String.data_append]
  exact ht.symm

/-- Draining an `IMAGE:` signal only writes `current_image`. -/
theorem applySignalDrain_image_equiv (st : RunState) {sig : String}
    (h : pyStartsWith sig "IMAGE:" = true) :
    promptEquiv (applySignalDrain st sig) st := by
  obtain ⟨y, rfl⟩ := eq_image_append h
  rw [applySignalDrain_image]
  exact ⟨rfl, rfl⟩

/-- Applying an `IMAGE:` signal in the wait loop only writes
`current_image`. -/
theorem applySignalPaused_image_equiv (st : RunState) {sig : String}
    (h : pyStartsWith sig "IMAGE:" = true) :
    promptEquiv (applySignalPaused st sig) st := by
  obtain ⟨y, rfl⟩ := eq_image_append h
  rw [applySignalPaused_image]
  exact ⟨rfl, rfl⟩

/-- Draining the same signal preserves `promptEquiv`. -/
theorem applySignalDrain_equiv {st st' : RunState} (h : promptEquiv st st')
    (sig : String) :
    promptEquiv (applySignalDrain st sig) (applySignalDrain st' sig) := by
  unfold applySignalDrain
  split_ifs
  · exact ⟨rfl, h.2⟩
  · exact ⟨rfl, h.2⟩
  · exact ⟨h.1, rfl⟩
  · exact ⟨h.1, h.2⟩
  · exact h

/-- Applying the same signal in the wait loop preserves `promptEquiv`. -/
theorem applySignalPaused_equiv {st st' : RunState} (h : promptEquiv st st')
    (sig : String) :
    promptEquiv (applySignalPaused st sig) (applySignalPaused st' sig) := by
  unfold applySignalPaused
  split_ifs
  · exact ⟨rfl, h.2⟩
  · exact ⟨h.1, rfl⟩
  · exact ⟨h.1, h.2⟩
  · exact h

/-- The non-blocking drain, run on a signal list and on the same list
with its `IMAGE:` signals erased, lands in `promptEquiv` states. -/
theorem foldl_drain_equiv :
    ∀ (l : List String) {st st' : RunState}, promptEquiv st st' →
    promptEquiv (l.foldl applySignalDrain st)
      ((stripImages l).foldl applySignalDrain st') := by
  intro l
  induction l with
  | nil => exact fun h => h
  | cons sig rest ih =>
    intro st st' h
    by_cases hi : pyStartsWith sig "IMAGE:" = true
    · have hs : stripImages (sig :: rest) = stripImages rest := by
        simp [stripImages, hi]
      rw [hs, List.foldl_cons]
      exact ih ((applySignalDrain_image_equiv st hi).trans h)
    · have hs : stripImages (sig :: rest) = sig :: stripImages rest := by
        simp [stripImages, hi]
      rw [hs, List.foldl_cons, List.foldl_cons]
      exact ih (applySignalDrain_equiv h sig)

/-- One step of the paused wait. -/
theorem waitForResume_cons {st : RunState} (hp : st.paused = true)
    (sig : String) (rest : List String) :
    waitForResume st (sig :: rest) = waitForResume (applySignalPaused st sig) rest := by
  show (if st.paused = true then _ else _) = _
  rw [if_pos hp]

/-- The paused wait, on a signal list and on the same list with its
`IMAGE:` signals erased, blocks in the same way and lands in
`promptEquiv` states. -/
theorem waitForResume_equiv :
    ∀ (l : List String) {st st' : RunState}, promptEquiv st st' →
    optionEquiv (waitForResume st l) (waitForResume st' (stripImages l)) := by
  intro l
  induction l with
  | nil =>
    intro st st' h
    show optionEquiv (if st.paused then none else some st)
      (if st'.paused then none else some st')
    rw [← h.1]
    cases hp : st.paused
    · exact h
    · exact trivial
  | cons sig rest ih =>
    intro st st' h
    cases hp : st.paused with
    | false =>
      have hp' : st'.paused = false := h.1 ▸ hp
      rw [waitForResume_not_paused hp _, waitForResume_not_paused hp' _]
      exact h
    | true =>
      have hp' : st'.paused = true := h.1 ▸ hp
      by_cases hi : pyStartsWith sig "IMAGE:" = true
      · have hs : stripImages (sig :: rest) = stripImages rest := by
          simp [stripImages, hi]
        rw [waitForResume_cons hp, hs]
        exact ih ((applySignalPaused_image_equiv st hi).trans h)
      · have hs : stripImages (sig :: rest) = sig :: stripImages rest := by
          simp [stripImages, hi]
        rw [waitForResume_cons hp, hs, waitForResume_cons hp']
        exact ih (applySignalPaused_equiv h sig)

/-- `check_pause_status`, on a schedule and on the same schedule with
its `IMAGE:` signals erased, blocks identically and lands in
`promptEquiv` states. -/
theorem checkPauseStatus_equiv {st st' : RunState} (h : promptEquiv st st')
    (q a : List String) :
    optionEquiv (checkPauseStatus st q a)
      (checkPauseStatus st' (stripImages q) (stripImages a)) :=
  waitForResume_equiv a (foldl_drain_equiv q h)

/-- The epilogue's trace and result do not depend on the run state. -/
theorem finishLoop_events_result {env env' : LoopEnv} (p : LoopParams)
    (hld : env'.listdir = env.listdir) (hsr : env'.stitchResult = env.stitchResult)
    (st st' : RunState) (n : Nat) :
    (finishLoop env p st n).1 = (finishLoop env' p st' n).1 ∧
    (finishLoop env p st n).2.1 = (finishLoop env' p st' n).2.1 := by
  constructor <;>
    (cases hs : p.stitch_videos <;>
      cases hc : collectVideoPaths env.listdir p.base_output_dir n <;>
        simp [finishLoop, hld, hsr, hs, hc])

/-- The iteration loop, run against a schedule and against the same
schedule with every `IMAGE:` signal erased, from `promptEquiv` states:
identical event traces and identical results. -/
theorem runIterations_stripped {env env' : LoopEnv} (p : LoopParams)
    (hld : env'.listdir = env.listdir)
    (hq : ∀ j, env'.queuedAt j = stripImages (env.queuedAt j))
    (ha : ∀ j, env'.arrivingAt j = stripImages (env.arrivingAt j))
    (hsr : env'.stitchResult = env.stitchResult) :
    ∀ (r i : Nat) {st st' : RunState}, promptEquiv st st' →
    (runIterations env p st i r).1 = (runIterations env' p st' i r).1 ∧
    (runIterations env p st i r).2.1 = (runIterations env' p st' i r).2.1 := by
  intro r
  induction r with
  | zero =>
    intro i st st' _
    exact finishLoop_events_result p hld hsr st st' i
  | succ r ih =>
    intro i st st' h
    have hrel := checkPauseStatus_equiv h (env.queuedAt i) (env.arrivingAt i)
    rw [← hq i, ← ha i] at hrel
    simp only [runIterations]
    cases hc1 : checkPauseStatus st (env.queuedAt i) (env.arrivingAt i) with
    | none =>
      cases hc2 : checkPauseStatus st' (env'.queuedAt i) (env'.arrivingAt i) with
      | none => exact ⟨rfl, rfl⟩
      | some s' => rw [hc1, hc2] at hrel; exact hrel.elim
    | some s =>
      cases hc2 : checkPauseStatus st' (env'.queuedAt i) (env'.arrivingAt i) with
      | none => rw [hc1, hc2] at hrel; exact hrel.elim
      | some s' =>
        rw [hc1, hc2] at hrel
        have hrel' : promptEquiv s s' := hrel
        rw [hld]
        cases hm : findMp4Files env.listdir (frameDir p.base_output_dir (i - 1)) with
        | nil => exact ⟨rfl, rfl⟩
        | cons f fs =>
          obtain ⟨h1, h2⟩ := ih (i + 1) hrel'
          dsimp only
          rw [hrel'.2]
          exact ⟨by rw [h1], h2⟩

/-- The whole run, against a schedule and against the same schedule
with every `IMAGE:` signal erased, from states agreeing on flag and
prompt: identical event traces and identical results. -/
theorem runFeedbackLoop_stripped {env env' : LoopEnv} (p : LoopParams)
    (hld : env'.listdir = env.listdir)
    (hq : ∀ j, env'.queuedAt j = stripImages (env.queuedAt j))
    (ha : ∀ j, env'.arrivingAt j = stripImages (env.arrivingAt j))
    (hsr : env'.stitchResult = env.stitchResult)
    {st0 st0' : RunState} (h0 : promptEquiv st0 st0') :
    (runFeedbackLoop env p st0).1 = (runFeedbackLoop env' p st0').1 ∧
    (runFeedbackLoop env p st0).2.1 = (runFeedbackLoop env' p st0').2.1 := by
  have h1 : promptEquiv { st0 with current_prompt := some p.initial_prompt }
      { st0' with current_prompt := some p.initial_prompt } := ⟨h0.1, rfl⟩
  have hrel := checkPauseStatus_equiv h1 (env.queuedAt 0) (env.arrivingAt 0)
  rw [← hq 0, ← ha 0] at hrel
  simp only [runFeedbackLoop]
  cases hc1 : checkPauseStatus { st0 with current_prompt := some p.initial_prompt }
      (env.queuedAt 0) (env.arrivingAt 0) with
  | none =>
    cases hc2 : checkPauseStatus { st0' with current_prompt := some p.initial_prompt }
        (env'.queuedAt 0) (env'.arrivingAt 0) with
    | none => exact ⟨rfl, rfl⟩
    | some s' => rw [hc1, hc2] at hrel; exact hrel.elim
  | some s =>
    cases hc2 : checkPauseStatus { st0' with current_prompt := some p.initial_prompt }
        (env'.queuedAt 0) (env'.arrivingAt 0) with
    | none => rw [hc1, hc2] at hrel; exact hrel.elim
    | some s' =>
      rw [hc1, hc2] at hrel
      have hrel' : promptEquiv s s' := hrel
      split_ifs
      · exact ⟨rfl, rfl⟩
      · exact ⟨rfl, rfl⟩
      · exact ⟨rfl, rfl⟩
      · exact ⟨rfl, rfl⟩
      · exact ⟨rfl, rfl⟩
      · obtain ⟨h1', h2'⟩ := runIterations_stripped p hld hq ha hsr
          (p.max_iterations.toNat - 1) 1 hrel'
        dsimp only
        exact ⟨by rw [h1'], h2'⟩

/-- Erasing `IMAGE:` signals is idempotent. -/
theorem stripImages_idem (l : List String) : stripImages (stripImages l) = stripImages l := by
  unfold stripImages
  induction l with
  | nil => rfl
  | cons sig rest ih =>
    by_cases hi : pyStartsWith sig "IMAGE:" = true <;> simp [List.filter_cons, hi, ih]

/-- C9.  The generation command lines of a run are independent of the
`SetImage` (`IMAGE:`) signals delivered: two runs over environments
identical except for the presence and contents of `IMAGE:` signals —
and from initial states differing at most in `current_image` — produce
identical event traces (hence identical commands for every iteration)
and identical results.  The conditioning override is written by signal
handling but never read when a command is constructed. -/
theorem claim9_image_noninterference (env1 env2 : LoopEnv) (p : LoopParams)
    (st01 st02 : RunState)
    (hld : env1.listdir = env2.listdir)
    (hsr : env1.stitchResult = env2.stitchResult)
    (hq : ∀ j, stripImages (env1.queuedAt j) = stripImages (env2.queuedAt j))
    (ha : ∀ j, stripImages (env1.arrivingAt j) = stripImages (env2.arrivingAt j))
    (hp : st01.paused = st02.paused)
    (hpr : st01.current_prompt = st02.current_prompt) :
    (runFeedbackLoop env1 p st01).1 = (runFeedbackLoop env2 p st02).1 ∧
    (runFeedbackLoop env1 p st01).2.1 = (runFeedbackLoop env2 p st02).2.1 := by
  let envS : LoopEnv :=
    { listdir := env1.listdir,
      queuedAt := fun j => stripImages (env1.queuedAt j),
      arrivingAt := fun j => stripImages (env1.arrivingAt j),
      stitchResult := env1.stitchResult }
  have hS1 := @runFeedbackLoop_stripped env1 envS p rfl
    (fun j => rfl) (fun j => rfl) rfl st01 st01 (promptEquiv_refl st01)
  have hS2 := @runFeedbackLoop_stripped env2 envS p hld
    (fun j => hq j) (fun j => ha j) hsr st02 st02 (promptEquiv_refl st02)
  have hSS := @runFeedbackLoop_stripped envS envS p rfl
    (fun j => (stripImages_idem (env1.queuedAt j)).symm)
    (fun j => (stripImages_idem (env1.arrivingAt j)).symm) rfl st01 st02
    (show promptEquiv st01 st02 from ⟨hp, hpr⟩)
  exact ⟨hS1.1.trans (hSS.1.trans hS2.1.symm), hS1.2.trans (hSS.2.trans hS2.2.symm)⟩

/-- Environment delivering a `SetImage` signal at checkpoint 1. -/
def envI : LoopEnv :=
  { envA with queuedAt := fun j => if j = 1 then ["IMAGE:user_pic.png"] else [] }

set_option maxRecDepth 10000 in
/-- Witness for C9: a run receiving `IMAGE:user_pic.png` before
iteration 1 produces exactly the trace and result of the run receiving
no signal at all. -/
theorem claim9_image_noninterference_witness :
    (runFeedbackLoop envI pB stA).1 = (runFeedbackLoop envA pB stA).1 ∧
    (runFeedbackLoop envI pB stA).2.1 = (runFeedbackLoop envA pB stA).2.1 :=
  claim9_image_noninterference envI envA pB stA stA rfl rfl
    (fun j => by
      by_cases hj : j = 1 <;> simp only [envI, envA, hj, if_pos, if_neg] <;> decide)
    (fun j => rfl) rfl rfl

/-! ## The Artifact Stitcher and the Artifact Extractor -/

/-- Outcome of launching an external tool via `subprocess.run`:
normal exit, `CalledProcessError` (carrying the exception text
`str(e)`), or `FileNotFoundError` because the binary itself cannot be
located. -/
inductive ToolOutcome where
  | success
  | calledProcessError (eStr : String)
  | binaryMissing
deriving DecidableEq

/-- The filesystem and process world seen by `stitch_videos` and
`extract_last_frame`: `os.path.isfile`, `os.path.abspath`, the tool
launcher, and whether the manifest still exists when the `finally`
cleanup runs. -/
structure FsEnv where
  isfile : String → Bool
  abspath : String → String
  run : List String → ToolOutcome
  manifestPresentAtCleanup : Bool

/-- Filesystem side effects of the Stitcher, in order.  `runTool`
records the attempt to launch the external tool. -/
inductive FsEvent where
  | writeFile (path contents : String)
  | runTool (cmd : List String)
  | removeFile (path : String)
deriving DecidableEq

/-- `CONCAT_TEMP_FILENAME` (line 21). -/
def CONCAT_TEMP_FILENAME : String := "concat_list.txt"

/-- Python `repr` of a list of strings without special characters, as
interpolated into the missing-files message. -/
def pyListRepr (l : List String) : String :=
  "[" ++ String.intercalate ", " (l.map fun s => "'" ++ s ++ "'") ++ "]"

/-- The ffmpeg concat command (lines 136-148). -/
def ffmpegConcatCmd (concatPath outputPath : String) : List String :=
  ["ffmpeg", "-f", "concat", "-safe", "0", "-i", concatPath, "-c", "copy", "-y",
   outputPath]

/-- The manifest contents: one `file '<abspath>'` line per input, in
input order (lines 130-133). -/
def concatManifest (env : FsEnv) (video_paths : List String) : String :=
  String.join (video_paths.map fun v => "file '" ++ env.abspath v ++ "'\n")

/-- `stitch_videos` (lines 81-173): validate, write the manifest,
launch the concat tool, and remove the manifest in the `finally` block
(when it still exists; a failure of the removal itself is caught and
only logged, so the result never depends on the cleanup). -/
def stitchVideos (env : FsEnv) (video_paths : List String)
    (output_dir output_filename : String) : List FsEvent × Except PyErr String :=
  if video_paths = [] then
    ([], .error (.valueError "No video paths provided for stitching"))
  else if output_dir = "" ∨ pyStrip output_dir = "" then
    ([], .error (.valueError "Output directory cannot be empty"))
  else if output_filename = "" ∨ pyStrip output_filename = "" then
    ([], .error (.valueError "Output filename cannot be empty"))
  else
    let missing := video_paths.filter (fun v => !env.isfile v)
    if missing ≠ [] then
      ([], .error (.fileNotFoundError ("Video files not found: " ++ pyListRepr missing)))
    else
      let out_dir := env.abspath (pyStrip output_dir)
      let out_name := pyStrip output_filename
      let output_path := pathJoin out_dir out_name
      let concat_file_path := pathJoin out_dir CONCAT_TEMP_FILENAME
      let events := [FsEvent.writeFile concat_file_path (concatManifest env video_paths),
                     FsEvent.runTool (ffmpegConcatCmd concat_file_path output_path)] ++
        (if env.manifestPresentAtCleanup then [FsEvent.removeFile concat_file_path]
         else [])
      match env.run (ffmpegConcatCmd concat_file_path output_path) with
      | .success => (events, .ok output_path)
      | .calledProcessError eStr =>
          (events, .error (.runtimeError ("FFmpeg failed to stitch videos: " ++ eStr)))
      | .binaryMissing =>
          (events, .error (.runtimeError
            "FFmpeg not found. Please ensure FFmpeg is installed and in PATH."))

/-- A stitching environment in which every file exists, `abspath` is
the identity (all paths used are already absolute and normalized), and
the tool behaves as `outcome` says. -/
def stitchEnv (outcome : ToolOutcome) (present : Bool) : FsEnv :=
  { isfile := fun _ => true, abspath := fun s => s, run := fun _ => outcome,
    manifestPresentAtCleanup := present }

set_option maxRecDepth 10000 in
/-- C6.  On `["/a/1.mp4", "/a/2.mp4"]`, `/out`, `f.mp4`: the manifest
`/out/concat_list.txt` is written with the two `file '…'` lines in
input order, the concat tool is launched in copy mode targeting
`/out/f.mp4`, the manifest is removed afterwards on success and on both
failure paths whenever it still exists (its absence at cleanup is
tolerated and never changes the result), `/out/f.mp4` is returned on
success; an empty input list fails with `ValueError` before touching
the filesystem. -/
theorem claim6_stitcher (outcome : ToolOutcome) (present : Bool) :
    stitchVideos (stitchEnv outcome present) [] "/out" "f.mp4" =
      ([], .error (.valueError "No video paths provided for stitching")) ∧
    (stitchVideos (stitchEnv outcome present) ["/a/1.mp4", "/a/2.mp4"]
        "/out" "f.mp4").1 =
      [.writeFile "/out/concat_list.txt" "file '/a/1.mp4'\nfile '/a/2.mp4'\n",
       .runTool ["ffmpeg", "-f", "concat", "-safe", "0", "-i",
         "/out/concat_list.txt", "-c", "copy", "-y", "/out/f.mp4"]] ++
      (if present then [.removeFile "/out/concat_list.txt"] else []) ∧
    (stitchVideos (stitchEnv outcome present) ["/a/1.mp4", "/a/2.mp4"]
        "/out" "f.mp4").2 =
      (match outcome with
       | .success => .ok "/out/f.mp4"
       | .calledProcessError eStr =>
           .error (.runtimeError ("FFmpeg failed to stitch videos: " ++ eStr))
       | .binaryMissing =>
           .error (.runtimeError
             "FFmpeg not found. Please ensure FFmpeg is installed and in PATH.")) ∧
    (stitchVideos (stitchEnv outcome true) ["/a/1.mp4", "/a/2.mp4"]
        "/out" "f.mp4").2 =
      (stitchVideos (stitchEnv outcome false) ["/a/1.mp4", "/a/2.mp4"]
        "/out" "f.mp4").2 := by
  cases outcome <;> cases present <;> exact ⟨rfl, rfl, rfl, rfl⟩

/-- Index of the last occurrence of `c`, Python `str.rfind`. -/
def rfindAux (cs : List Char) (c : Char) : Option Nat :=
  match cs with
  | [] => none
  | a :: rest =>
    match rfindAux rest c with
    | some i => some (i + 1)
    | none => if a = c then some 0 else none

/-- The final path component, `pathlib.Path(...).name`, for the
slash-separated paths produced by `os.path.abspath`. -/
def basenameOf (s : String) : String :=
  match rfindAux s.data '/' with
  | some i => ⟨s.data.drop (i + 1)⟩
  | none => s

/-- `pathlib.Path(...).with_name(name)`: replace the final path
component. -/
def withNameOf (s name : String) : String :=
  match rfindAux s.data '/' with
  | some i => (⟨s.data.take (i + 1)⟩ : String) ++ name
  | none => name

/-- `pathlib.Path(...).stem`: the final component without its last
suffix (a leading or trailing dot carries no suffix). -/
def stemOf (name : String) : String :=
  match rfindAux name.data '.' with
  | some i => if 0 < i ∧ i < name.data.length - 1 then ⟨name.data.take i⟩ else name
  | none => name

/-- The ffmpeg last-frame-extraction command (lines 50-64). -/
def ffmpegExtractCmd (video png : String) : List String :=
  ["ffmpeg", "-sseof", "-1", "-i", video, "-frames:v", "1", "-update", "1",
   "-f", "image2", "-y", png]

/-- `extract_last_frame` (lines 24-78): validate, derive the sibling
`<stem>_last_frame.png` path, launch ffmpeg; a non-zero exit and an
unlocatable binary both surface as `RuntimeError`, with different
messages. -/
def extractLastFrame (env : FsEnv) (video_path : String) : Except PyErr String :=
  if video_path = "" ∨ pyStrip video_path = "" then
    .error (.valueError "Video path cannot be empty")
  else
    let vp := env.abspath (pyStrip video_path)
    if env.isfile vp = false then
      .error (.fileNotFoundError ("The video file '" ++ vp ++ "' does not exist."))
    else
      let png := withNameOf vp (stemOf (basenameOf vp) ++ "_last_frame.png")
      match env.run (ffmpegExtractCmd vp png) with
      | .success => .ok png
      | .calledProcessError eStr =>
          .error (.runtimeError ("FFmpeg failed to extract the last frame: " ++ eStr))
      | .binaryMissing =>
          .error (.runtimeError
            "FFmpeg not found. Please ensure FFmpeg is installed and in PATH.")

/-- The Python exception class of a raised failure — what a caller's
`except` clause can select on. -/
def pyErrKind : PyErr → String
  | .valueError _ => "ValueError"
  | .fileNotFoundError _ => "FileNotFoundError"
  | .runtimeError _ => "RuntimeError"

/-- Extraction environment: the file exists but the ffmpeg binary
cannot be located. -/
def envMissingBin : FsEnv :=
  { isfile := fun _ => true, abspath := fun s => s, run := fun _ => .binaryMissing,
    manifestPresentAtCleanup := true }

/-- Extraction environment: the file exists and ffmpeg exits non-zero. -/
def envToolFail : FsEnv :=
  { isfile := fun _ => true, abspath := fun s => s,
    run := fun _ => .calledProcessError "exit status 1",
    manifestPresentAtCleanup := true }

/-- C7 counterexample.  An unlocatable tool binary and a non-zero tool
exit are raised with the *same* exception class (`RuntimeError`):
the claimed distinct failure kind `ToolUnavailable` does not exist in
the code — the two failures differ only in message text. -/
theorem claim7_kind_counterexample :
    extractLastFrame envMissingBin "/v/clip.mp4" =
      .error (.runtimeError
        "FFmpeg not found. Please ensure FFmpeg is installed and in PATH.") ∧
    extractLastFrame envToolFail "/v/clip.mp4" =
      .error (.runtimeError
        ("FFmpeg failed to extract the last frame: " ++ "exit status 1")) ∧
    pyErrKind (.runtimeError
        "FFmpeg not found. Please ensure FFmpeg is installed and in PATH.") =
      pyErrKind (.runtimeError
        ("FFmpeg failed to extract the last frame: " ++ "exit status 1")) :=
  ⟨rfl, rfl, rfl⟩

/-- The derived path shares the directory of the input (everything up
to and including the last separator) and only the final component is
replaced. -/
theorem withNameOf_same_dir (s name : String) (i : Nat)
    (h : rfindAux s.data '/' = some i) :
    (withNameOf s name).data = s.data.take (i + 1) ++ name.data := by
  unfold withNameOf
  rw [h, String.data_append]

/-- C7 (amended).  `extract_last_frame`: a blank path fails with
`ValueError`; a missing file fails with `FileNotFoundError` naming the
absolute path; success returns the sibling path with the stem suffixed
`_last_frame.png` (same directory); a non-zero tool exit raises
`RuntimeError` embedding the exception text; an unlocatable binary
raises `RuntimeError` with the fixed `FFmpeg not found` message — the
same exception class as the tool-failure case, distinguishable from it
only by the message text (the two messages can never coincide). -/
theorem claim7_extract_errors (env : FsEnv) (video_path : String) :
    (video_path = "" ∨ pyStrip video_path = "" →
      extractLastFrame env video_path = .error (.valueError "Video path cannot be empty")) ∧
    (¬(video_path = "" ∨ pyStrip video_path = "") →
      env.isfile (env.abspath (pyStrip video_path)) = false →
      extractLastFrame env video_path = .error (.fileNotFoundError
        ("The video file '" ++ env.abspath (pyStrip video_path) ++ "' does not exist."))) ∧
    (¬(video_path = "" ∨ pyStrip video_path = "") →
      env.isfile (env.abspath (pyStrip video_path)) = true →
      extractLastFrame env video_path =
        (match env.run (ffmpegExtractCmd (env.abspath (pyStrip video_path))
            (withNameOf (env.abspath (pyStrip video_path))
              (stemOf (basenameOf (env.abspath (pyStrip video_path))) ++
                "_last_frame.png"))) with
         | .success => .ok (withNameOf (env.abspath (pyStrip video_path))
             (stemOf (basenameOf (env.abspath (pyStrip video_path))) ++
               "_last_frame.png"))
         | .calledProcessError eStr =>
             .error (.runtimeError ("FFmpeg failed to extract the last frame: " ++ eStr))
         | .binaryMissing =>
             .error (.runtimeError
               "FFmpeg not found. Please ensure FFmpeg is installed and in PATH."))) ∧
    (∀ eStr : String,
      ("FFmpeg not found. Please ensure FFmpeg is installed and in PATH." : String) ≠
        "FFmpeg failed to extract the last frame: " ++ eStr) := by
  refine ⟨fun h => ?_, fun h hn => ?_, fun h hy => ?_, fun eStr =>
    (ne_of_append "FFmpeg failed to extract the last frame: "
      "FFmpeg not found. Please ensure FFmpeg is installed and in PATH."
      (by decide) eStr).symm⟩
  · unfold extractLastFrame
    rw [if_pos h]
  · simp only [extractLastFrame]
    rw [if_neg h, if_pos hn]
  · simp only [extractLastFrame]
    rw [if_neg h, if_neg (by simp [hy])]

/-- Extraction environment where everything works. -/
def envOk : FsEnv :=
  { isfile := fun _ => true, abspath := fun s => s, run := fun _ => .success,
    manifestPresentAtCleanup := true }

/-- Witness for the amended C7: concrete evaluations of every branch,
via the theorem. -/
theorem claim7_extract_errors_witness :
    extractLastFrame envOk "   " = .error (.valueError "Video path cannot be empty") ∧
    extractLastFrame envMissingBin "/v/clip.mp4" =
      (match envMissingBin.run (ffmpegExtractCmd "/v/clip.mp4"
          (withNameOf "/v/clip.mp4"
            (stemOf (basenameOf "/v/clip.mp4") ++ "_last_frame.png"))) with
       | .success => .ok (withNameOf "/v/clip.mp4"
           (stemOf (basenameOf "/v/clip.mp4") ++ "_last_frame.png"))
       | .calledProcessError eStr =>
           .error (.runtimeError ("FFmpeg failed to extract the last frame: " ++ eStr))
       | .binaryMissing =>
           .error (.runtimeError
             "FFmpeg not found. Please ensure FFmpeg is installed and in PATH.")) ∧
    withNameOf "/v/clip.mp4" (stemOf (basenameOf "/v/clip.mp4") ++ "_last_frame.png") =
      "/v/clip_last_frame.png" :=
  ⟨(claim7_extract_errors envOk "   ").1 (Or.inr (by decide)),
   (claim7_extract_errors envMissingBin "/v/clip.mp4").2.2.1 (by decide) rfl,
   by decide⟩

end LoopedGen

